import Mathlib

/-!
# Verification of the prisma-engines core against its specification

This file shallowly embeds the parts of the repository that the claims
C1–C10 are about:

* `Sanitize` — `sanitize_name` from
  `introspection-engine/connectors/sql-introspection-connector/src/sanitize_datamodel_names.rs`.
* `QueryBuilder` — `conditions` / `chunked_conditions` from
  `query-engine/connectors/sql-query-connector/src/query_builder/mod.rs`
  and `ManyRelatedRecordsWithUnionAll` from
  `.../query_builder/read/many_related_records/union_all.rs`.
* `QueryDocument` — `query-engine/core/src/query_document/query_document.rs`.
* `Calculator` — the SQL schema calculator from
  `migration-engine/connectors/sql-migration-connector/src/sql_schema_calculator.rs`.
* `GraphBuilder` — `connect_nested_update` from
  `query-engine/core/src/query_graph_builder/write/nested/update_nested.rs`
  together with the helpers it uses from `.../write/utils.rs`.

Rust `panic!` / `expect` / `unwrap` / `todo!` outcomes are made explicit by
the result type `RResult`, which distinguishes a returned typed error
(`err`) from a process panic (`panic`).
-/

/-- Result of running a piece of Rust code that may either return `Ok`,
return a typed `Err`, or panic (`panic!`, `expect`, `unwrap`, `todo!`). -/
inductive RResult (ε : Type) (α : Type) where
  | ok (a : α)
  | err (e : ε)
  | panic (msg : String)
deriving Repr, DecidableEq

namespace RResult

def bind {ε α β : Type} : RResult ε α → (α → RResult ε β) → RResult ε β
  | ok a, f => f a
  | err e, _ => err e
  | panic m, _ => panic m

instance {ε : Type} : Monad (RResult ε) where
  pure := ok
  bind := bind

/-- `RResult.isOk r` holds iff `r` is an `ok`. -/
def isOk {ε α : Type} : RResult ε α → Bool
  | ok _ => true
  | _ => false

@[simp] theorem bind_ok {ε α β : Type} (a : α) (f : α → RResult ε β) :
    bind (ok a) f = f a := rfl

@[simp] theorem bind_err {ε α β : Type} (e : ε) (f : α → RResult ε β) :
    bind (err e) f = err e := rfl

@[simp] theorem bind_panic {ε α β : Type} (m : String) (f : α → RResult ε β) :
    bind (panic m) f = panic m := rfl

end RResult

namespace Sanitize

/-! ## The introspection name sanitizer

Embedding of `sanitize_name` (sanitize_datamodel_names.rs, lines 76–89).
The two regexes operate per character: `RE_START = ^[^a-zA-Z]+` matches
exactly when the string starts with a non-letter, and its `replace_all`
deletes the maximal leading run of non-letters; `RE = [^_a-zA-Z0-9]`
matches any character outside the word class, and its `replace_all`
replaces each such character with `_`. Strings are modelled at the level
of Unicode characters, which agrees with the `regex` crate's semantics on
`str`. -/

/-- A character matched by the regex class `[a-zA-Z]`. -/
def isAsciiLetter (c : Char) : Bool :=
  (('a' ≤ c) && (c ≤ 'z')) || (('A' ≤ c) && (c ≤ 'Z'))

/-- A character matched by the regex class `[_a-zA-Z0-9]`. -/
def isWordChar (c : Char) : Bool :=
  isAsciiLetter c || (('0' ≤ c) && (c ≤ '9')) || (c = '_')

/-- `RE_START.is_match`: the string begins with at least one non-letter. -/
def reStartIsMatch (l : List Char) : Bool :=
  match l with
  | [] => false
  | c :: _ => !isAsciiLetter c

/-- `RE.is_match`: some character lies outside `[_a-zA-Z0-9]`. -/
def reIsMatch (l : List Char) : Bool :=
  l.any (fun c => !isWordChar c)

/-- `RE_START.replace_all(name, "")`: drop the maximal leading run of
non-letters. -/
def stripStart (l : List Char) : List Char :=
  l.dropWhile (fun c => !isAsciiLetter c)

/-- `RE.replace_all(s, "_")`: replace every character outside the word
class with `_`. -/
def replaceNonWord (l : List Char) : List Char :=
  l.map (fun c => if isWordChar c then c else '_')

/-- Character-list core of `sanitize_name`. -/
def sanitizeNameChars (l : List Char) : List Char × Option (List Char) :=
  if reStartIsMatch l || reIsMatch l then
    (replaceNonWord (stripStart l), some l)
  else
    (l, none)

/-- `sanitize_name` (sanitize_datamodel_names.rs, lines 80–89). -/
def sanitize_name (name : String) : String × Option String :=
  match sanitizeNameChars name.toList with
  | (out, db) => (⟨out⟩, db.map fun l => ⟨l⟩)

theorem stripStart_head_letter (l : List Char) (c : Char)
    (h : (stripStart l).head? = some c) : isAsciiLetter c = true := by
  induction l with
  | nil => simp [stripStart] at h
  | cons a as ih =>
    by_cases ha : isAsciiLetter a
    · have he : stripStart (a :: as) = a :: as := by
        simp [stripStart, List.dropWhile_cons, ha]
      rw [he] at h
      simp [List.head?] at h
      rw [← h]
      exact ha
    · have he : stripStart (a :: as) = stripStart as := by
        simp [stripStart, List.dropWhile_cons, ha]
      rw [he] at h
      exact ih h

theorem replaceNonWord_all_word (l : List Char) :
    ∀ c ∈ replaceNonWord l, isWordChar c = true := by
  intro c hc
  simp only [replaceNonWord, List.mem_map] at hc
  obtain ⟨a, -, ha⟩ := hc
  by_cases hw : isWordChar a
  · rw [if_pos hw] at ha
    rw [← ha]
    exact hw
  · rw [if_neg hw] at ha
    rw [← ha]
    simp [isWordChar]

theorem replaceNonWord_head_letter (l : List Char) (c : Char)
    (hh : ∀ d, l.head? = some d → isAsciiLetter d = true)
    (h : (replaceNonWord l).head? = some c) : isAsciiLetter c = true := by
  cases l with
  | nil => simp [replaceNonWord] at h
  | cons a as =>
    have ha : isAsciiLetter a = true := hh a rfl
    have hw : isWordChar a = true := by simp [isWordChar, ha]
    have hr : replaceNonWord (a :: as) = a :: replaceNonWord as := by
      simp [replaceNonWord, hw]
    rw [hr] at h
    simp [List.head?] at h
    rw [← h]
    exact ha

/-- The output of the sanitizing branch never triggers sanitation again. -/
theorem sanitized_clean (l : List Char) :
    reStartIsMatch (replaceNonWord (stripStart l)) = false ∧
      reIsMatch (replaceNonWord (stripStart l)) = false := by
  constructor
  · cases he : replaceNonWord (stripStart l) with
    | nil => simp [reStartIsMatch]
    | cons a as =>
      have ha : isAsciiLetter a = true := by
        apply replaceNonWord_head_letter (stripStart l) a
        · intro d hd
          exact stripStart_head_letter l d hd
        · rw [he]
          rfl
      simp [reStartIsMatch, ha]
  · cases hb : reIsMatch (replaceNonWord (stripStart l)) with
    | false => rfl
    | true =>
      exfalso
      simp only [reIsMatch, List.any_eq_true] at hb
      obtain ⟨c, hc, hcw⟩ := hb
      have := replaceNonWord_all_word (stripStart l) c hc
      simp [this] at hcw

/-- C7 (claim statement, character-list form): sanitizing an already
sanitized name is the identity with no stored database name. -/
theorem sanitizeNameChars_idem (l : List Char) :
    sanitizeNameChars (sanitizeNameChars l).1 = ((sanitizeNameChars l).1, none) := by
  by_cases h : reStartIsMatch l || reIsMatch l
  · obtain ⟨h1, h2⟩ := sanitized_clean l
    simp [sanitizeNameChars, h, h1, h2]
  · simp [sanitizeNameChars, h]

/-- C7: `sanitize_name` is idempotent: for every string `n`,
`sanitize_name (sanitize_name n).1 = ((sanitize_name n).1, none)`. -/
theorem sanitize_name_idempotent (n : String) :
    sanitize_name (sanitize_name n).1 = ((sanitize_name n).1, .none) := by
  unfold sanitize_name
  have h := sanitizeNameChars_idem n.toList
  cases he : sanitizeNameChars n.toList with
  | mk out db =>
    rw [he] at h
    simp only at h ⊢
    have ht : (String.mk out).toList = out := rfl
    rw [ht, h]
    rfl

end Sanitize

namespace QueryBuilder

/-! ## SQL query builder predicates (query_builder/mod.rs)

Embedding of `conditions` (lines 31–57) and `chunked_conditions`
(lines 11–29). The fragment of `quaint::ast` that these functions build
is embedded structurally: a `ConditionTree` with `NoCondition`, single
comparisons, and binary `And`/`Or`, exactly the constructors the source
uses. -/

/-- Fragment of `prisma_value::PrismaValue` needed by the claims
(floating-point and temporal payloads are not exercised by any claim). -/
inductive PrismaValue where
  | null
  | int (i : Int)
  | string (s : String)
  | boolean (b : Bool)
  | enum (s : String)
deriving Repr, DecidableEq

/-- A quaint column, identified by its name. -/
structure Column where
  name : String
deriving Repr, DecidableEq

/-- The quaint comparison expressions this query builder produces:
`col.equals(val)` and `col.in_selection(vals)`. -/
inductive SqlExpr where
  | equals (col : Column) (v : PrismaValue)
  | inSelection (col : Column) (vs : List PrismaValue)
deriving Repr, DecidableEq

/-- Fragment of `quaint::ast::ConditionTree` built by the query builder. -/
inductive ConditionTree where
  | noCondition
  | single (e : SqlExpr)
  | and (a b : ConditionTree)
  | or (a b : ConditionTree)
deriving Repr, DecidableEq

/-- `prisma_models::RecordIdentifier`: ordered (field, value) pairs. -/
structure RecordIdentifier where
  pairs : List (String × PrismaValue)
deriving Repr, DecidableEq

/-- `RecordIdentifier::values()`: the values of the pairs, in order. -/
def RecordIdentifier.values (r : RecordIdentifier) : List PrismaValue :=
  r.pairs.map Prod.snd

/-- `ids.values().next().unwrap()`: first value of an identifier. The
source `unwrap` panics on an empty identifier; theorems below therefore
hypothesise non-empty identifiers. -/
def RecordIdentifier.firstValue (r : RecordIdentifier) : PrismaValue :=
  r.values.headD .null

/-- One step of the source's inner fold: `match acc { NoCondition =>
col.equals(val).into(), cond => cond.and(col.equals(val)) }`. -/
def andFoldStep (acc : ConditionTree) (cv : Column × PrismaValue) : ConditionTree :=
  match acc with
  | .noCondition => .single (.equals cv.1 cv.2)
  | cond => .and cond (.single (.equals cv.1 cv.2))

/-- The per-identifier condition of the multi-column branch of
`conditions`: fold the zipped (column, value) equalities. -/
def rowCondition (columns : List Column) (ids : RecordIdentifier) : ConditionTree :=
  (columns.zip ids.values).foldl andFoldStep .noCondition

/-- One step of the source's outer fold: `match acc { NoCondition =>
cond, acc => acc.or(cond) }`. -/
def orFoldStep (acc cond : ConditionTree) : ConditionTree :=
  match acc with
  | .noCondition => cond
  | acc => .or acc cond

/-- `conditions` (query_builder/mod.rs, lines 31–57). -/
def conditions (columns : List Column) (records : List RecordIdentifier) :
    ConditionTree :=
  match columns with
  | [column] =>
      .single (.inSelection column (records.map RecordIdentifier.firstValue))
  | _ => (records.map (rowCondition columns)).foldl orFoldStep .noCondition

/-- `PARAMETER_LIMIT` (query_builder/mod.rs, line 11). -/
def PARAMETER_LIMIT : Nat := 10000

/-- `slice::chunks(k)`: consecutive chunks of size at most `k`. Rust
panics on `k = 0`; the `[l]` fallback below is never reached at
`PARAMETER_LIMIT`. -/
def chunks {α : Type} (k : Nat) (l : List α) : List (List α) :=
  match l with
  | [] => []
  | a :: as =>
      if hk : k = 0 then [a :: as]
      else (a :: as).take k :: chunks k ((a :: as).drop k)
termination_by l.length
decreasing_by
  simp only [List.length_drop, List.length_cons]
  exact Nat.sub_lt (Nat.succ_pos _) (Nat.pos_of_ne_zero hk)

/-- `chunked_conditions` (query_builder/mod.rs, lines 13–29): one query
per chunk of at most `PARAMETER_LIMIT` identifiers. The caller-supplied
closure `f` and the `Into<Query>` conversion are collapsed into one
function into an arbitrary query type. -/
def chunked_conditions {Query : Type} (columns : List Column)
    (records : List RecordIdentifier) (f : ConditionTree → Query) : List Query :=
  (chunks PARAMETER_LIMIT records).map fun chunk => f (conditions columns chunk)

end QueryBuilder

namespace QueryBuilder

theorem chunks_nil {α : Type} (k : Nat) : chunks k ([] : List α) = [] := by
  simp [chunks]

theorem chunks_cons {α : Type} (k : Nat) (hk : k ≠ 0) (a : α) (as : List α) :
    chunks k (a :: as) = (a :: as).take k :: chunks k ((a :: as).drop k) := by
  rw [chunks]
  simp [hk]

/-- The chunks of a list concatenate back to the list. -/
theorem chunks_join {α : Type} (k : Nat) (l : List α) :
    (chunks k l).flatten = l := by
  generalize hn : l.length = n
  induction n using Nat.strong_induction_on generalizing l with
  | _ n ih =>
    cases l with
    | nil => simp [chunks_nil]
    | cons a as =>
      subst hn
      by_cases hk : k = 0
      · subst hk
        rw [chunks]
        simp
      · rw [chunks_cons k hk a as, List.flatten_cons]
        rw [ih (((a :: as).drop k).length) ?_ _ rfl]
        · exact List.take_append_drop k (a :: as)
        · simp only [List.length_drop, List.length_cons]
          exact Nat.sub_lt (Nat.succ_pos _) (Nat.pos_of_ne_zero hk)

/-- There are exactly ⌈n / k⌉ chunks. -/
theorem chunks_length {α : Type} (k : Nat) (hk : k ≠ 0) (l : List α) :
    (chunks k l).length = (l.length + k - 1) / k := by
  generalize hn : l.length = n
  induction n using Nat.strong_induction_on generalizing l with
  | _ n ih =>
    cases l with
    | nil =>
      subst hn
      rw [chunks_nil]
      simp only [List.length_nil]
      symm
      exact Nat.div_eq_of_lt (by omega)
    | cons a as =>
      subst hn
      rw [chunks_cons k hk a as]
      simp only [List.length_cons]
      rw [ih (((a :: as).drop k).length) ?_ _ rfl]
      · simp only [List.length_drop, List.length_cons]
        have h1 : as.length + 1 + k - 1 = as.length + k := by omega
        rw [h1, Nat.add_div_right _ (Nat.pos_of_ne_zero hk)]
        congr 1
        by_cases hmk : as.length + 1 ≤ k
        · have h2 : as.length + 1 - k = 0 := by omega
          rw [h2, Nat.div_eq_of_lt (by omega), Nat.div_eq_of_lt (by omega)]
        · have h3 : as.length + 1 - k + k - 1 = as.length := by omega
          rw [h3]
      · simp only [List.length_drop, List.length_cons]
        exact Nat.sub_lt (Nat.succ_pos _) (Nat.pos_of_ne_zero hk)

/-- Every chunk holds at most `k` elements. -/
theorem chunks_sizes {α : Type} (k : Nat) (hk : k ≠ 0) (l : List α) :
    ∀ c ∈ chunks k l, c.length ≤ k := by
  generalize hn : l.length = n
  induction n using Nat.strong_induction_on generalizing l with
  | _ n ih =>
    cases l with
    | nil => simp [chunks_nil]
    | cons a as =>
      subst hn
      rw [chunks_cons k hk a as]
      intro c hc
      rcases List.mem_cons.mp hc with h | h
      · subst h
        exact List.length_take_le k _
      · refine ih (((a :: as).drop k).length) ?_ _ rfl c h
        simp only [List.length_drop, List.length_cons]
        exact Nat.sub_lt (Nat.succ_pos _) (Nat.pos_of_ne_zero hk)

/-- C6: `chunked_conditions` returns exactly ⌈n/10000⌉ queries (as a
natural-number ceiling division), the chunks partition the input record
list in order, every chunk holds at most `PARAMETER_LIMIT = 10000`
identifiers, and each query is the caller's function applied to the
conditions of its chunk. -/
theorem chunked_conditions_spec {Query : Type} (columns : List Column)
    (records : List RecordIdentifier) (f : ConditionTree → Query) :
    (chunked_conditions columns records f).length
        = (records.length + PARAMETER_LIMIT - 1) / PARAMETER_LIMIT ∧
      (chunks PARAMETER_LIMIT records).flatten = records ∧
      (∀ c ∈ chunks PARAMETER_LIMIT records, c.length ≤ PARAMETER_LIMIT) ∧
      chunked_conditions columns records f
        = (chunks PARAMETER_LIMIT records).map fun c => f (conditions columns c) := by
  refine ⟨?_, chunks_join _ _, chunks_sizes _ (by decide) _, rfl⟩
  simp only [chunked_conditions, List.length_map]
  exact chunks_length _ (by decide) _

/-- The claim's AND-of-equalities for one identifier: a left-nested
conjunction of the per-column comparisons. -/
def bigAnd (es : List SqlExpr) : ConditionTree :=
  match es with
  | [] => .noCondition
  | e :: rest => rest.foldl (fun acc x => .and acc (.single x)) (.single e)

/-- The claim's OR over identifiers: a left-nested disjunction. -/
def bigOr (cs : List ConditionTree) : ConditionTree :=
  match cs with
  | [] => .noCondition
  | c :: rest => rest.foldl .or c

theorem foldl_and_ne_noCondition (es : List SqlExpr) (acc : ConditionTree)
    (h : acc ≠ .noCondition) :
    es.foldl (fun acc x => .and acc (.single x)) acc ≠ .noCondition := by
  induction es generalizing acc with
  | nil => exact h
  | cons e rest ih =>
    simp only [List.foldl_cons]
    exact ih _ (by simp)

theorem bigAnd_ne_noCondition (e : SqlExpr) (rest : List SqlExpr) :
    bigAnd (e :: rest) ≠ .noCondition := by
  simp only [bigAnd]
  exact foldl_and_ne_noCondition rest _ (by simp)

theorem foldl_andFoldStep_eq (es : List (Column × PrismaValue)) :
    es.foldl andFoldStep .noCondition
      = bigAnd (es.map fun cv => .equals cv.1 cv.2) := by
  cases es with
  | nil => rfl
  | cons e rest =>
    simp only [List.foldl_cons, List.map_cons, bigAnd]
    have step : ∀ (rest : List (Column × PrismaValue)) (acc : ConditionTree),
        acc ≠ .noCondition →
        rest.foldl andFoldStep acc
          = (rest.map fun cv => SqlExpr.equals cv.1 cv.2).foldl
              (fun acc x => .and acc (.single x)) acc := by
      intro rest
      induction rest with
      | nil => intro acc _; rfl
      | cons x xs ih =>
        intro acc hacc
        simp only [List.foldl_cons, List.map_cons]
        have hs : andFoldStep acc x = .and acc (.single (.equals x.1 x.2)) := by
          cases acc with
          | noCondition => exact absurd rfl hacc
          | single e => rfl
          | and a b => rfl
          | or a b => rfl
        rw [hs]
        exact ih _ (by simp)
    exact step rest _ (by simp [andFoldStep])

theorem foldl_orFoldStep_eq (L : List ConditionTree)
    (h : ∀ c ∈ L, c ≠ .noCondition) :
    L.foldl orFoldStep .noCondition = bigOr L := by
  cases L with
  | nil => rfl
  | cons c rest =>
    simp only [List.foldl_cons, bigOr]
    have hc : orFoldStep .noCondition c = c := rfl
    rw [hc]
    have step : ∀ (rest : List ConditionTree) (acc : ConditionTree),
        acc ≠ .noCondition → rest.foldl orFoldStep acc = rest.foldl .or acc := by
      intro rest
      induction rest with
      | nil => intro acc _; rfl
      | cons x xs ih =>
        intro acc hacc
        simp only [List.foldl_cons]
        have hs : orFoldStep acc x = .or acc x := by
          cases acc with
          | noCondition => exact absurd rfl hacc
          | single e => rfl
          | and a b => rfl
          | or a b => rfl
        rw [hs]
        exact ih _ (by simp)
    exact step rest c (h c (by simp))

/-- C5: for a single column, `conditions` is `col IN (…)` over the
identifiers' first values in input order; for more than one column it is
the OR over identifiers of the AND of per-column equalities between each
column and the identifier's corresponding value. The length hypothesis
reflects that the source zips columns with identifier values and unwraps
the first value, so identifiers must carry one value per column. -/
theorem conditions_spec (columns : List Column) (records : List RecordIdentifier)
    (hlen : ∀ r ∈ records, r.values.length = columns.length) :
    (∀ column, columns = [column] →
      conditions columns records
        = .single (.inSelection column (records.map RecordIdentifier.firstValue))) ∧
    (1 < columns.length →
      conditions columns records
        = bigOr (records.map fun r =>
            bigAnd ((columns.zip r.values).map fun cv => .equals cv.1 cv.2))) := by
  constructor
  · intro column hc
    subst hc
    rfl
  · intro hm
    cases columns with
    | nil => simp at hm
    | cons a as =>
      cases as with
      | nil => simp at hm
      | cons b bs =>
        have hred : conditions (a :: b :: bs) records
            = (records.map (rowCondition (a :: b :: bs))).foldl orFoldStep
                .noCondition := rfl
        rw [hred]
        have hmap : records.map (rowCondition (a :: b :: bs))
            = records.map fun r =>
                bigAnd (((a :: b :: bs).zip r.values).map fun cv =>
                  .equals cv.1 cv.2) := by
          apply List.map_congr_left
          intro r _
          exact foldl_andFoldStep_eq _
        rw [hmap]
        apply foldl_orFoldStep_eq
        intro c hc
        simp only [List.mem_map] at hc
        obtain ⟨r, hr, hrc⟩ := hc
        have hv : r.values.length = bs.length + 2 := by
          simpa using hlen r hr
        have hz : ((a :: b :: bs).zip r.values) ≠ [] := by
          cases hrv : r.values with
          | nil =>
            rw [hrv] at hv
            simp at hv
          | cons v vs => simp [hrv, List.zip_cons_cons]
        rw [← hrc]
        cases hzc : (a :: b :: bs).zip r.values with
        | nil => exact absurd hzc hz
        | cons p ps =>
          simp only [hzc, List.map_cons]
          exact bigAnd_ne_noCondition _ _

/-- Witness for C5 at a concrete input: two columns and two two-value
identifiers. -/
theorem conditions_spec_witness :
    (∀ r ∈ [RecordIdentifier.mk [("a", .int 1), ("b", .int 2)],
            RecordIdentifier.mk [("a", .int 3), ("b", .int 4)]],
        r.values.length = ([Column.mk "a", Column.mk "b"] : List Column).length) ∧
      (1 < ([Column.mk "a", Column.mk "b"] : List Column).length →
        conditions [Column.mk "a", Column.mk "b"]
            [RecordIdentifier.mk [("a", .int 1), ("b", .int 2)],
             RecordIdentifier.mk [("a", .int 3), ("b", .int 4)]]
          = bigOr ([RecordIdentifier.mk [("a", .int 1), ("b", .int 2)],
                    RecordIdentifier.mk [("a", .int 3), ("b", .int 4)]].map fun r =>
              bigAnd ((([Column.mk "a", Column.mk "b"] : List Column).zip
                  r.values).map fun cv => .equals cv.1 cv.2))) :=
  ⟨by decide,
   (conditions_spec [Column.mk "a", Column.mk "b"]
      [RecordIdentifier.mk [("a", .int 1), ("b", .int 2)],
       RecordIdentifier.mk [("a", .int 3), ("b", .int 4)]] (by decide)).2⟩

end QueryBuilder

namespace QueryDocument

/-! ## Query document IR (query_document.rs)

`QueryValue::Object` holds a `BTreeMap<String, QueryValue>`; it is
embedded as the list of its entries in iteration (ascending-key) order,
so the source's `.into_iter().next()` is the list head. `f64` payloads
are carried as their literal text (no claim exercises them). The
`Compact` variant of `BatchDocument` is spelled `compacted` because the
method `compact` occupies the name in Lean. -/

inductive QueryValue where
  | int (i : Int)
  | float (repr : String)
  | string (s : String)
  | boolean (b : Bool)
  | null
  | enum (s : String)
  | list (vs : List QueryValue)
  | object (fields : List (String × QueryValue))

structure Selection where
  name : String
  «alias» : Option String
  arguments : List (String × QueryValue)
  nested_selections : List Selection

/-! Structural equality mirroring the derived `PartialEq` on
`QueryValue` and `Selection`. -/

mutual
def QueryValue.beq : QueryValue → QueryValue → Bool
  | .int a, .int b => a == b
  | .float a, .float b => a == b
  | .string a, .string b => a == b
  | .boolean a, .boolean b => a == b
  | .null, .null => true
  | .enum a, .enum b => a == b
  | .list as, .list bs => QueryValue.beqList as bs
  | .object as, .object bs => QueryValue.beqPairs as bs
  | _, _ => false

def QueryValue.beqList : List QueryValue → List QueryValue → Bool
  | [], [] => true
  | a :: as, b :: bs => QueryValue.beq a b && QueryValue.beqList as bs
  | _, _ => false

def QueryValue.beqPairs :
    List (String × QueryValue) → List (String × QueryValue) → Bool
  | [], [] => true
  | (k1, v1) :: as, (k2, v2) :: bs =>
      k1 == k2 && QueryValue.beq v1 v2 && QueryValue.beqPairs as bs
  | _, _ => false
end

mutual
def Selection.beq : Selection → Selection → Bool
  | ⟨n1, a1, g1, s1⟩, ⟨n2, a2, g2, s2⟩ =>
      n1 == n2 && a1 == a2 && QueryValue.beqPairs g1 g2 && Selection.beqList s1 s2

def Selection.beqList : List Selection → List Selection → Bool
  | [], [] => true
  | a :: as, b :: bs => Selection.beq a b && Selection.beqList as bs
  | _, _ => false
end

mutual
theorem QueryValue.beq_refl : ∀ v : QueryValue, QueryValue.beq v v = true
  | .int i => by simp [QueryValue.beq]
  | .float r => by simp [QueryValue.beq]
  | .string s => by simp [QueryValue.beq]
  | .boolean b => by simp [QueryValue.beq]
  | .null => rfl
  | .enum s => by simp [QueryValue.beq]
  | .list vs => by
      simp only [QueryValue.beq]
      exact QueryValue.beqList_refl vs
  | .object fs => by
      simp only [QueryValue.beq]
      exact QueryValue.beqPairs_refl fs

theorem QueryValue.beqList_refl :
    ∀ vs : List QueryValue, QueryValue.beqList vs vs = true
  | [] => rfl
  | v :: vs => by
      simp only [QueryValue.beqList, Bool.and_eq_true]
      exact ⟨QueryValue.beq_refl v, QueryValue.beqList_refl vs⟩

theorem QueryValue.beqPairs_refl :
    ∀ ps : List (String × QueryValue), QueryValue.beqPairs ps ps = true
  | [] => rfl
  | (k, v) :: ps => by
      simp only [QueryValue.beqPairs, Bool.and_eq_true]
      exact ⟨⟨by simp, QueryValue.beq_refl v⟩, QueryValue.beqPairs_refl ps⟩
end

mutual
theorem Selection.beq_self : ∀ s : Selection, Selection.beq s s = true
  | ⟨n, a, g, ns⟩ => by
      simp only [Selection.beq, Bool.and_eq_true]
      exact ⟨⟨⟨by simp, by simp⟩, QueryValue.beqPairs_refl g⟩,
        Selection.beqList_self ns⟩

theorem Selection.beqList_self :
    ∀ l : List Selection, Selection.beqList l l = true
  | [] => rfl
  | s :: l => by
      simp only [Selection.beqList, Bool.and_eq_true]
      exact ⟨Selection.beq_self s, Selection.beqList_self l⟩
end

/-- `str::starts_with` as a character-list prefix test (a UTF-8 byte
prefix of a valid string is exactly a character prefix). -/
def strStartsWith (s pat : String) : Bool :=
  pat.toList.isPrefixOf s.toList

/-- `Selection::is_find_one`. -/
def Selection.is_find_one (s : Selection) : Bool :=
  strStartsWith s.name "findOne"

inductive Operation where
  | read (s : Selection)
  | write (s : Selection)

/-- `Operation::is_find_one`. -/
def Operation.is_find_one : Operation → Bool
  | .read s => s.is_find_one
  | .write _ => false

/-- `Operation::into_read`. -/
def Operation.into_read : Operation → Option Selection
  | .read s => some s
  | .write _ => none

/-- `Operation::name`. -/
def Operation.name : Operation → String
  | .read s => s.name
  | .write s => s.name

/-- `Operation::nested_selections`. -/
def Operation.nested_selections : Operation → List Selection
  | .read s => s.nested_selections
  | .write s => s.nested_selections

/-- `CompactedDocument` (query_document.rs, lines 165–169). -/
structure CompactedDocument where
  arguments : List QueryValue
  operation : Operation

inductive BatchDocument where
  | multi (operations : List Operation)
  | compacted (doc : CompactedDocument)

/-- `BatchDocument::can_compact` (query_document.rs, lines 144–154). -/
def BatchDocument.can_compact : BatchDocument → Bool
  | .multi operations =>
      match operations with
      | [] => false
      | first :: rest =>
          first.is_find_one &&
            rest.all fun op =>
              op.is_find_one && first.name == op.name
                && Selection.beqList first.nested_selections op.nested_selections
  | .compacted _ => false

/-- `BatchDocument::compact` (query_document.rs, lines 156–162). The
eligible branch is `todo!()`, which panics with "not yet implemented". -/
def BatchDocument.compact (self : BatchDocument) : RResult Unit BatchDocument :=
  if self.can_compact then .panic "not yet implemented" else .ok self

/-- `str::replacen(pat, to, 1)` on character lists: replace the first
occurrence of `pat`. -/
def replaceFirstChars (pat repl : List Char) : List Char → List Char
  | [] => []
  | c :: cs =>
      if pat.isPrefixOf (c :: cs) then repl ++ (c :: cs).drop pat.length
      else c :: replaceFirstChars pat repl cs

/-- `String::replacen(pat, to, 1)`. -/
def replaceFirst (s pat repl : String) : String :=
  ⟨replaceFirstChars pat.toList repl.toList s.toList⟩

/-- `ops.into_iter().map(|op| op.into_read().expect("Trying to compact a
write operation.")).collect()`. -/
def collectReads : List Operation → RResult Unit (List Selection)
  | [] => .ok []
  | op :: rest =>
      match op.into_read with
      | some sel => (collectReads rest).bind fun sels => .ok (sel :: sels)
      | none => .panic "Trying to compact a write operation."

/-- The `argument_name` computation of `CompactedDocument::from`: the
first key of the object in the first argument of the first selection;
each indexing / `unwrap` panics when its input is missing. -/
def firstArgumentName (sels : List Selection) : RResult Unit String :=
  match sels with
  | [] => .panic "index out of bounds"
  | sel :: _ =>
      match sel.arguments with
      | [] => .panic "index out of bounds"
      | (_, v) :: _ =>
          match v with
          | .object fields =>
              match fields with
              | [] => .panic "called `Option::unwrap()` on a `None` value"
              | (k, _) :: _ => .ok k
          | _ => .panic "called `Option::unwrap()` on a `None` value"

/-- The `values` computation of `CompactedDocument::from`: each
selection's first argument must be an object, of which the first value is
taken — regardless of that object's own key. -/
def collectFirstObjectValues : List Selection → RResult Unit (List QueryValue)
  | [] => .ok []
  | sel :: rest =>
      match sel.arguments with
      | [] => .panic "index out of bounds"
      | (_, v) :: _ =>
          match v with
          | .object fields =>
              match fields with
              | [] => .panic "called `Option::unwrap()` on a `None` value"
              | (_, val) :: _ =>
                  (collectFirstObjectValues rest).bind fun vs => .ok (val :: vs)
          | _ => .panic "Trying to compact a selection with non-object argument"

/-- The retained per-operation arguments:
`selection.arguments.pop().unwrap().1` takes each selection's **last**
argument value (`Vec::pop` removes from the back). -/
def collectPoppedArgs : List Selection → RResult Unit (List QueryValue)
  | [] => .ok []
  | sel :: rest =>
      match sel.arguments.getLast? with
      | some (_, v) => (collectPoppedArgs rest).bind fun vs => .ok (v :: vs)
      | none => .panic "called `Option::unwrap()` on a `None` value"

/-- `From<Vec<Operation>> for CompactedDocument` (query_document.rs,
lines 171–219). -/
def CompactedDocument.fromOps (ops : List Operation) :
    RResult Unit CompactedDocument :=
  (collectReads ops).bind fun selections =>
  (firstArgumentName selections).bind fun argument_name =>
  (collectFirstObjectValues selections).bind fun values =>
  match selections with
  | [] => .panic "index out of bounds"
  | sel0 :: _ =>
      (collectPoppedArgs selections).bind fun args =>
      .ok { arguments := args,
            operation := .read
              { name := replaceFirst sel0.name "findOne" "findMany",
                «alias» := sel0.alias,
                arguments := [("where",
                  .object [(argument_name ++ "_in", .list values)])],
                nested_selections := sel0.nested_selections } }

end QueryDocument

namespace QueryDocument

/-- A concrete eligible batch: two `findOneUser` reads with identical
nested selections and `where: {id: _}` arguments. -/
def findOneBatch : BatchDocument :=
  .multi
    [.read ⟨"findOneUser", none, [("where", .object [("id", .int 1)])], []⟩,
     .read ⟨"findOneUser", none, [("where", .object [("id", .int 2)])], []⟩]

/-- C1: on an eligible batch (`can_compact` holds), `compact` does not
return a `Compact(CompactedDocument)` — the eligible branch is `todo!()`,
so the call panics with "not yet implemented". -/
theorem compact_panics_on_eligible_batch :
    BatchDocument.can_compact findOneBatch = true ∧
      BatchDocument.compact findOneBatch = .panic "not yet implemented" :=
  ⟨rfl, rfl⟩

/-- The shape `CompactedDocument::from` requires of every selection: a
single argument whose value is a non-empty object. -/
def Selection.wellShaped (s : Selection) : Prop :=
  ∃ wn k v obj, s.arguments = [(wn, QueryValue.object ((k, v) :: obj))]

/-- First key of the object in the first argument. -/
def Selection.firstObjKey (s : Selection) : String :=
  match s.arguments with
  | (_, .object ((k, _) :: _)) :: _ => k
  | _ => ""

/-- First value of the object in the first argument. -/
def Selection.firstObjVal (s : Selection) : QueryValue :=
  match s.arguments with
  | (_, .object ((_, v) :: _)) :: _ => v
  | _ => .null

/-- Value of the last argument (what `arguments.pop()` yields). -/
def Selection.lastArgVal (s : Selection) : QueryValue :=
  match s.arguments.getLast? with
  | some (_, v) => v
  | none => .null

theorem collectReads_map (sels : List Selection) :
    collectReads (sels.map .read) = .ok sels := by
  induction sels with
  | nil => rfl
  | cons s rest ih =>
    simp [collectReads, Operation.into_read, ih]

theorem firstArgumentName_shaped (s0 : Selection) (rest : List Selection)
    (h : s0.wellShaped) :
    firstArgumentName (s0 :: rest) = .ok s0.firstObjKey := by
  obtain ⟨wn, k, v, obj, hs⟩ := h
  simp [firstArgumentName, hs, Selection.firstObjKey]

theorem collectFirstObjectValues_shaped (sels : List Selection)
    (h : ∀ s ∈ sels, s.wellShaped) :
    collectFirstObjectValues sels = .ok (sels.map Selection.firstObjVal) := by
  induction sels with
  | nil => rfl
  | cons s rest ih =>
    obtain ⟨wn, k, v, obj, hs⟩ := h s (by simp)
    have ih' := ih fun t ht => h t (by simp [ht])
    simp [collectFirstObjectValues, hs, ih', Selection.firstObjVal]

theorem collectPoppedArgs_shaped (sels : List Selection)
    (h : ∀ s ∈ sels, s.wellShaped) :
    collectPoppedArgs sels = .ok (sels.map Selection.lastArgVal) := by
  induction sels with
  | nil => rfl
  | cons s rest ih =>
    obtain ⟨wn, k, v, obj, hs⟩ := h s (by simp)
    have ih' := ih fun t ht => h t (by simp [ht])
    simp [collectPoppedArgs, hs, ih', Selection.lastArgVal]

/-- C10: `can_compact` never inspects operation arguments — a `Multi`
batch of `findOne` reads sharing the selection name and nested
selections is compactable no matter what the `where`-argument keys are —
and `CompactedDocument::from` derives the single `"{key}_in"` key
solely from the first operation's first argument key while collecting
each operation's first argument value regardless of its own key. -/
theorem can_compact_ignores_arguments
    (s0 : Selection) (srest : List Selection)
    (h0 : strStartsWith s0.name "findOne" = true)
    (hsame : ∀ s ∈ srest,
      s.name = s0.name ∧ s.nested_selections = s0.nested_selections)
    (hshape : ∀ s ∈ s0 :: srest, s.wellShaped) :
    BatchDocument.can_compact (.multi ((s0 :: srest).map .read)) = true ∧
      CompactedDocument.fromOps ((s0 :: srest).map .read)
        = .ok { arguments := (s0 :: srest).map Selection.lastArgVal,
                operation := .read
                  { name := replaceFirst s0.name "findOne" "findMany",
                    «alias» := s0.alias,
                    arguments := [("where", .object
                      [(s0.firstObjKey ++ "_in",
                        .list ((s0 :: srest).map Selection.firstObjVal))])],
                    nested_selections := s0.nested_selections } } := by
  constructor
  · simp only [List.map_cons, BatchDocument.can_compact, Bool.and_eq_true]
    constructor
    · simpa [Operation.is_find_one, Selection.is_find_one] using h0
    · rw [List.all_eq_true]
      intro op hop
      rw [List.mem_map] at hop
      obtain ⟨s, hs, rfl⟩ := hop
      obtain ⟨hn, hns⟩ := hsame s hs
      simp only [Operation.is_find_one, Operation.name,
        Operation.nested_selections, Selection.is_find_one, Bool.and_eq_true]
      refine ⟨⟨?_, ?_⟩, ?_⟩
      · rw [hn]
        exact h0
      · rw [hn]
        simp
      · rw [hns]
        exact Selection.beqList_self _
  · rw [CompactedDocument.fromOps, collectReads_map, RResult.bind_ok,
      firstArgumentName_shaped s0 srest (hshape s0 (by simp)), RResult.bind_ok,
      collectFirstObjectValues_shaped _ hshape, RResult.bind_ok]
    simp only
    rw [collectPoppedArgs_shaped _ hshape, RResult.bind_ok]

/-- Witness for C10: two `findOneUser` reads whose `where` objects use
*different* keys (`id` vs `email`) are compacted using the first key. -/
theorem can_compact_ignores_arguments_witness :
    (strStartsWith "findOneUser" "findOne" = true) ∧
      (BatchDocument.can_compact (.multi
        ([⟨"findOneUser", none, [("where", .object [("id", .int 1)])], []⟩,
          ⟨"findOneUser", none,
            [("where", .object [("email", .string "a@b")])], []⟩].map .read))
          = true ∧
        CompactedDocument.fromOps
          ([⟨"findOneUser", none, [("where", .object [("id", .int 1)])], []⟩,
            ⟨"findOneUser", none,
              [("where", .object [("email", .string "a@b")])], []⟩].map .read)
          = .ok { arguments :=
                    [.object [("id", .int 1)], .object [("email", .string "a@b")]],
                  operation := .read
                    { name := "findManyUser",
                      «alias» := none,
                      arguments := [("where", .object
                        [("id_in", .list [.int 1, .string "a@b"])])],
                      nested_selections := [] } }) := by
  constructor
  · rfl
  · have h := can_compact_ignores_arguments
      ⟨"findOneUser", none, [("where", .object [("id", .int 1)])], []⟩
      [⟨"findOneUser", none, [("where", .object [("email", .string "a@b")])], []⟩]
      rfl
      (by
        intro s hs
        rcases List.mem_singleton.mp hs with rfl
        exact ⟨rfl, rfl⟩)
      (by
        intro s hs
        rcases List.mem_cons.mp hs with rfl | hs
        · exact ⟨"where", "id", .int 1, [], rfl⟩
        · rcases List.mem_singleton.mp hs with rfl
          exact ⟨"where", "email", .string "a@b", [], rfl⟩)
    refine ⟨h.1, ?_⟩
    rw [h.2]
    rfl

end QueryDocument

namespace UnionAll

open QueryBuilder

/-! ## Union-all strategy for paginated related records (union_all.rs)

The quaint `Select` builder calls the strategy performs (`limit`,
`offset`, `order_by`, `so_that`) are embedded freely as constructors, so
a built select records exactly which builder calls were applied to the
incoming base select. `ManyRelatedRecordsBaseQuery` itself is defined in
`many_related_records/mod.rs`, which is not among the sources; it is
modelled from the spec as the record of fields the strategy reads. -/

inductive SortOrder where
  | asc
  | desc
deriving Repr, DecidableEq

/-- An ORDER BY definition. -/
structure OrderDefinition where
  columns : List String
  direction : SortOrder
deriving Repr, DecidableEq

/-- Modelled from the spec: `Ordering::internal` (ordering.rs, not among
the sources) produces one ORDER BY definition over the aliased columns
per requested direction. -/
def Ordering.internal (columns : List String) (dirs : List SortOrder) :
    List OrderDefinition :=
  dirs.map fun d => { columns := columns, direction := d }

/-- Modelled from the spec: `SelectedFields::RELATED_MODEL_ALIAS`, the
alias under which the related model's key columns are selected. -/
def RELATED_MODEL_ALIAS : String := "__RelatedModel__"

/-- Free embedding of the quaint `Select` builder calls used here. -/
inductive Select where
  | base (tag : Nat)
  | limit (s : Select) (n : Nat)
  | offset (s : Select) (n : Nat)
  | orderBy (s : Select) (o : OrderDefinition)
  | soThat (s : Select) (c : ConditionTree)
deriving Repr, DecidableEq

/-- `quaint::ast::Union`, restricted to the UNION ALL combinations this
strategy emits: the ordered list of member selects. -/
structure Union where
  selects : List Select
deriving Repr, DecidableEq

/-- `Union::new`. -/
def Union.new (s : Select) : Union := ⟨[s]⟩

/-- `Union::all` (UNION ALL with a further select). -/
def Union.all (u : Union) (s : Select) : Union := ⟨u.selects ++ [s]⟩

/-- `Union::default`. -/
def Union.default : Union := ⟨[]⟩

inductive Query where
  | union (u : Union)
deriving Repr, DecidableEq

/-- The member selects of a built query. -/
def Query.selects : Query → List Select
  | .union u => u.selects

/-- `connector_interface::SkipAndLimit`. -/
structure SkipAndLimit where
  skip : Nat
  limit : Option Nat
deriving Repr, DecidableEq

/-- Modelled from the spec: the relation field, reduced to what the
strategy reads from it — `relation_column(true)`, the aliased foreign-key
column of the relation. -/
structure RelationField where
  relation_column : Column
deriving Repr, DecidableEq

/-- Modelled from the spec: `ManyRelatedRecordsBaseQuery`
(many_related_records/mod.rs, not among the sources): the base
relation-traversal select plus the data the pagination strategies need. -/
structure ManyRelatedRecordsBaseQuery where
  query : Select
  condition : ConditionTree
  cursor : ConditionTree
  order_directions : List SortOrder
  skip_and_limit : SkipAndLimit
  from_record_ids : List RecordIdentifier
  from_field : RelationField
deriving Repr, DecidableEq

/-- `Vec::dedup`: remove **consecutive** duplicates only. -/
def dedupConsecutive : List RecordIdentifier → List RecordIdentifier
  | [] => []
  | [a] => [a]
  | a :: b :: rest =>
      if a = b then dedupConsecutive (b :: rest)
      else a :: dedupConsecutive (b :: rest)

/-- Modelled from the spec: `RecordIdentifier::single_value` (crate
`prisma_models`, not among the sources) returns the sole value of a
single-field identifier (it asserts the identifier has exactly one
pair; counterexamples below use single-field identifiers only). -/
def RecordIdentifier.singleValue (r : RecordIdentifier) : PrismaValue :=
  r.values.headD .null

namespace ManyRelatedRecordsWithUnionAll

/-- The `base_query` after applying skip and limit. -/
def pagedQuery (base : ManyRelatedRecordsBaseQuery) : Select :=
  match base.skip_and_limit with
  | ⟨skip, some limit⟩ => (base.query.limit limit).offset skip
  | ⟨skip, none⟩ => base.query.offset skip

/-- The `base_query` after also folding in the ORDER BY definitions. -/
def orderedQuery (base : ManyRelatedRecordsBaseQuery) : Select :=
  (Ordering.internal [RELATED_MODEL_ALIAS] base.order_directions).foldl
    (fun acc o => acc.orderBy o) (pagedQuery base)

/-- The strategy's `build_cond` closure: the paged, ordered base select
restricted to `base_condition AND cursor AND from_field-column = parent id`. -/
def buildCond (base : ManyRelatedRecordsBaseQuery) (id : RecordIdentifier) :
    Select :=
  (orderedQuery base).soThat
    ((base.condition.and base.cursor).and
      (.single (.equals base.from_field.relation_column
        (RecordIdentifier.singleValue id))))

/-- `ManyRelatedRecordsWithUnionAll::with_pagination` (union_all.rs,
lines 10–62). -/
def with_pagination (base : ManyRelatedRecordsBaseQuery) : Query :=
  match dedupConsecutive base.from_record_ids with
  | [] => .union Union.default
  | id :: rest =>
      .union (rest.foldl (fun acc i => acc.all (buildCond base i))
        (Union.new (buildCond base id)))

/-- `ManyRelatedRecordsWithUnionAll::uses_row_number` (union_all.rs,
lines 64–66). -/
def uses_row_number : Bool := false

end ManyRelatedRecordsWithUnionAll

theorem union_foldl_selects (f : RecordIdentifier → Select)
    (rest : List RecordIdentifier) (acc : Union) :
    (rest.foldl (fun acc i => acc.all (f i)) acc).selects
      = acc.selects ++ rest.map f := by
  induction rest generalizing acc with
  | nil => rw [List.foldl_nil, List.map_nil, List.append_nil]
  | cons i is ih =>
    rw [List.foldl_cons, List.map_cons, ih]
    show (acc.selects ++ [f i]) ++ is.map f = acc.selects ++ (f i :: is.map f)
    rw [List.append_assoc]
    rfl

/-- C4 (amended): `with_pagination` collapses **consecutive** runs of
equal parent ids (`Vec::dedup`), emits for each remaining id exactly one
select — the base select with skip, limit and ordering applied and an
`= parent id` equality predicate conjoined to the base condition and
cursor — combines them in order with UNION ALL, and `uses_row_number`
is `false`. -/
theorem with_pagination_spec (base : ManyRelatedRecordsBaseQuery) :
    ManyRelatedRecordsWithUnionAll.with_pagination base
        = .union ⟨(dedupConsecutive base.from_record_ids).map
            (ManyRelatedRecordsWithUnionAll.buildCond base)⟩ ∧
      ManyRelatedRecordsWithUnionAll.uses_row_number = false := by
  refine ⟨?_, rfl⟩
  rw [ManyRelatedRecordsWithUnionAll.with_pagination]
  cases hd : dedupConsecutive base.from_record_ids with
  | nil => rfl
  | cons id rest =>
    simp only
    congr 1
    have h := union_foldl_selects
      (ManyRelatedRecordsWithUnionAll.buildCond base) rest
      (Union.new (ManyRelatedRecordsWithUnionAll.buildCond base id))
    cases hu : rest.foldl
        (fun acc i => acc.all (ManyRelatedRecordsWithUnionAll.buildCond base i))
        (Union.new (ManyRelatedRecordsWithUnionAll.buildCond base id)) with
    | mk selects =>
      rw [hu] at h
      simp only [Union.new, List.map_cons] at h ⊢
      rw [h]
      rfl

/-- The input exhibiting the dedup behaviour: parent ids a, b, a with
a ≠ b — the duplicate id `a` is not consecutive. -/
def cBaseAba : ManyRelatedRecordsBaseQuery :=
  { query := .base 0,
    condition := .noCondition,
    cursor := .noCondition,
    order_directions := [],
    skip_and_limit := ⟨0, none⟩,
    from_record_ids :=
      [⟨[("id", .int 1)]⟩, ⟨[("id", .int 2)]⟩, ⟨[("id", .int 1)]⟩],
    from_field := ⟨⟨"parent_id"⟩⟩ }

/-- C4 (counterexample): on parent ids `[1, 2, 1]` the union contains
three selects although only two distinct parent ids exist — `Vec::dedup`
removes only consecutive duplicates, so a repeated non-adjacent id
contributes more than one select. -/
theorem with_pagination_dedup_counterexample :
    ((ManyRelatedRecordsWithUnionAll.with_pagination cBaseAba).selects).length = 3
      ∧ cBaseAba.from_record_ids.dedup.length = 2 := by
  constructor
  · rfl
  · decide

end UnionAll

namespace Calculator

/-! ## SQL schema calculator (sql_schema_calculator.rs)

The declarative `datamodel` entities are embedded per §3 of the
specification (they live in the external `datamodel` crate). The
calculator itself is translated function by function. Rust panics
(`unwrap`, `expect`, `unimplemented!`) surface as `RResult.panic`;
`SqlError::Generic` as `RResult.err`. `DatamodelConverter::calculate_relations`
lives in the external `prisma_models` crate; the list of
`TempRelationHolder`s it would return is therefore taken as an input of
`calculate`. -/

inductive ScalarType where
  | int
  | float
  | boolean
  | string
  | dateTime
  | decimal
deriving Repr, DecidableEq

inductive FieldArity where
  | required
  | optional
  | list
deriving Repr, DecidableEq

inductive ValueGeneratorFn where
  | autoincrement
  | other (name : String)
deriving Repr, DecidableEq

/-- `ValueGenerator`; the calculator matches only on `generator`. -/
structure ValueGenerator where
  generator : ValueGeneratorFn
deriving Repr, DecidableEq

/-- `ScalarValue`; `f64`, decimal and datetime payloads are carried as
their display text, which is all `migration_value_new` uses. -/
inductive ScalarValue where
  | boolean (b : Bool)
  | int (i : Int)
  | float (repr : String)
  | decimal (repr : String)
  | string (s : String)
  | dateTime (repr : String)
  | constantLiteral (s : String)
deriving Repr, DecidableEq

inductive DefaultValue where
  | single (v : ScalarValue)
  | expression (g : ValueGenerator)
deriving Repr, DecidableEq

/-- `FieldType`; the `Relation` payload is never inspected by the
calculator and is omitted. -/
inductive FieldType where
  | base (t : ScalarType)
  | enum (name : String)
  | relation
deriving Repr, DecidableEq

structure Field where
  name : String
  database_name : Option String
  arity : FieldArity
  field_type : FieldType
  is_unique : Bool
  is_id : Bool
  default_value : Option DefaultValue
deriving Repr, DecidableEq

inductive IndexType where
  | unique
  | normal
deriving Repr, DecidableEq

structure IndexDefinition where
  name : Option String
  fields : List String
  tpe : IndexType
deriving Repr, DecidableEq

structure Model where
  name : String
  database_name : Option String
  fields : List Field
  indices : List IndexDefinition
  id_fields : List String
deriving Repr, DecidableEq

structure Enum where
  name : String
  database_name : Option String
  values : List String
deriving Repr, DecidableEq

structure Datamodel where
  models : List Model
  enums : List Enum
deriving Repr, DecidableEq

inductive SqlFamily where
  | postgres
  | mysql
  | sqlite
  | mssql
deriving Repr, DecidableEq

structure DatabaseInfo where
  sql_family : SqlFamily
deriving Repr, DecidableEq

/-! Physical (`sql_schema_describer`) entities. -/

inductive SqlColumnTypeFamily where
  | int
  | float
  | boolean
  | string
  | dateTime
  | enum (db_name : String)
deriving Repr, DecidableEq

inductive SqlColumnArity where
  | required
  | nullable
  | list
deriving Repr, DecidableEq

structure SqlColumnType where
  family : SqlColumnTypeFamily
  arity : SqlColumnArity
deriving Repr, DecidableEq

structure SqlColumn where
  name : String
  tpe : SqlColumnType
  default : Option String
  auto_increment : Bool
deriving Repr, DecidableEq

inductive SqlIndexType where
  | unique
  | normal
deriving Repr, DecidableEq

structure SqlIndex where
  name : String
  columns : List String
  tpe : SqlIndexType
deriving Repr, DecidableEq

structure SqlPrimaryKey where
  columns : List String
  sequence : Option String
deriving Repr, DecidableEq

inductive SqlForeignKeyAction where
  | restrict
  | setNull
  | cascade
deriving Repr, DecidableEq

structure SqlForeignKey where
  constraint_name : Option String
  columns : List String
  referenced_table : String
  referenced_columns : List String
  on_delete_action : SqlForeignKeyAction
deriving Repr, DecidableEq

structure SqlTable where
  name : String
  columns : List SqlColumn
  indices : List SqlIndex
  primary_key : Option SqlPrimaryKey
  foreign_keys : List SqlForeignKey
deriving Repr, DecidableEq

structure SqlEnum where
  name : String
  values : List String
deriving Repr, DecidableEq

structure SqlSchema where
  tables : List SqlTable
  enums : List SqlEnum
  sequences : List String
deriving Repr, DecidableEq

/-- `SqlError` as the calculator produces it (`SqlError::Generic`). -/
inductive SqlError where
  | generic (msg : String)
deriving Repr, DecidableEq

abbrev CalcM (α : Type) := RResult SqlError α

/-! Datamodel access helpers. -/

/-- `Model::db_name` (`single_database_name().unwrap_or(name)`). -/
def Model.db_name (m : Model) : String :=
  m.database_name.getD m.name

/-- `Field::db_name`. -/
def Field.db_name (f : Field) : String :=
  f.database_name.getD f.name

/-- `Datamodel::find_enum`. -/
def Datamodel.find_enum (dm : Datamodel) (name : String) : Option Enum :=
  dm.enums.find? fun e => e.name = name

/-- `Model::find_field` (lookup by declared field name). -/
def Model.find_field (m : Model) (name : String) : Option Field :=
  m.fields.find? fun f => f.name = name

/-- `id_fields` (sql_schema_calculator.rs, lines 536–548): `is_id`
singletons first, then the compound-id fields in list order. -/
def id_fields (m : Model) : List Field :=
  m.fields.filter (fun f => f.is_id)
    ++ m.id_fields.filterMap fun fname =>
        m.fields.find? fun f => f.name = fname

/-- `unique_fields` (lines 531–534). -/
def unique_fields (m : Model) : List Field :=
  m.fields.filter fun f => f.is_unique

/-- `unique_criteria` (lines 519–529). -/
def unique_criteria (m : Model) : List Field :=
  if id_fields m ≠ [] then id_fields m else unique_fields m

/-- `column_arity` (lines 490–496). -/
def column_arity (f : Field) : SqlColumnArity :=
  match f.arity with
  | .required => .required
  | .list => .list
  | .optional => .nullable

/-- `column_type_for_scalar_type` (lines 498–507); `Decimal` is
`unimplemented!()`. -/
def column_type_for_scalar_type (t : ScalarType) (arity : SqlColumnArity) :
    CalcM SqlColumnType :=
  match t with
  | .int => .ok ⟨.int, arity⟩
  | .float => .ok ⟨.float, arity⟩
  | .boolean => .ok ⟨.boolean, arity⟩
  | .string => .ok ⟨.string, arity⟩
  | .dateTime => .ok ⟨.dateTime, arity⟩
  | .decimal => .panic "not implemented"

/-- `scalar_type_for_field` (lines 479–488); panics on relation fields. -/
def scalar_type_for_field (f : Field) : CalcM ScalarType :=
  match f.field_type with
  | .base s => .ok s
  | .enum _ => .ok .string
  | .relation =>
      .panic ("This field type is not suported here. Field type is Relation on field "
        ++ f.name)

/-- `column_type` (lines 475–477). -/
def column_type (f : Field) : CalcM SqlColumnType :=
  (scalar_type_for_field f).bind fun st =>
    column_type_for_scalar_type st (column_arity f)

/-- `default_migration_value` (lines 439–463). -/
def default_migration_value (ft : FieldType) (dm : Datamodel) : CalcM ScalarValue :=
  match ft with
  | .base .boolean => .ok (.boolean false)
  | .base .int => .ok (.int 0)
  | .base .float => .ok (.float "0")
  | .base .string => .ok (.string "")
  | .base .decimal => .ok (.decimal "0")
  | .base .dateTime => .ok (.dateTime "1970-01-01 00:00:00 UTC")
  | .enum name =>
      match dm.find_enum name with
      | some e =>
          match e.values.head? with
          | some v => .ok (.string v)
          | none => .panic ("Enum " ++ name ++ " did not contain any values.")
      | none => .panic ("Enum " ++ name ++ " was not present in the Datamodel.")
  | .relation => .panic "this functions must only be called for scalar fields"

/-- Rendering of a `ScalarValue` as in `migration_value_new`; the
datetime display text loses its trailing " UTC". -/
def renderScalarValue : ScalarValue → String
  | .boolean b => if b then "true" else "false"
  | .int i => toString i
  | .float r => r
  | .decimal r => r
  | .string s => s
  | .dateTime r => r.dropRight 4
  | .constantLiteral s => s

/-- `Field::migration_value_new` (lines 399–436). -/
def Field.migration_value_new (f : Field) (dm : Datamodel) :
    CalcM (Option String) :=
  let valM : CalcM (Option ScalarValue) :=
    match f.default_value, f.arity with
    | some (.single s), _ => .ok (some s)
    | some (.expression _), _ =>
        (default_migration_value f.field_type dm).bind fun v => .ok (some v)
    | none, .required =>
        (default_migration_value f.field_type dm).bind fun v => .ok (some v)
    | none, _ => .ok none
  valM.bind fun v?1 =>
    match v?1 with
    | none => .ok none
    | some v => .ok (if f.is_id then none else some (renderScalarValue v))

/-- `enum_column_type` (lines 465–473). -/
def enum_column_type (f : Field) (info : DatabaseInfo) (db_name : String) :
    CalcM SqlColumnType :=
  match info.sql_family with
  | .postgres => .ok ⟨.enum db_name, column_arity f⟩
  | .mysql => .ok ⟨.enum db_name, column_arity f⟩
  | _ => column_type f

/-- `Field` default is autoincrement (`calculate_model_tables`,
lines 73–81). -/
def Field.is_autoincrement (f : Field) : Bool :=
  match f.default_value with
  | some (.expression ⟨.autoincrement⟩) => true
  | _ => false

/-- The per-model column collection of `calculate_model_tables`
(lines 66–100); relation fields produce nothing. -/
def calcColumns (dm : Datamodel) (info : DatabaseInfo) :
    List Field → CalcM (List SqlColumn)
  | [] => .ok []
  | f :: rest =>
      match f.field_type with
      | .base _ =>
          (column_type f).bind fun tpe =>
          (f.migration_value_new dm).bind fun dflt =>
          (calcColumns dm info rest).bind fun cols =>
          .ok ({ name := f.db_name, tpe := tpe, default := dflt,
                 auto_increment := f.is_autoincrement } :: cols)
      | .enum ename =>
          match dm.find_enum ename with
          | none => .panic "called `Option::unwrap()` on a `None` value"
          | some e =>
              let enum_db_name := e.database_name.getD ename
              (enum_column_type f info enum_db_name).bind fun tpe =>
              (f.migration_value_new dm).bind fun dflt =>
              (calcColumns dm info rest).bind fun cols =>
              .ok ({ name := f.db_name, tpe := tpe, default := dflt,
                     auto_increment := false } :: cols)
      | .relation => calcColumns dm info rest

/-- The single-field unique indexes (lines 107–117). -/
def singleFieldIndexes (m : Model) : List SqlIndex :=
  m.fields.filterMap fun f =>
    if f.is_unique then
      some { name := m.db_name ++ "." ++ f.db_name,
             columns := [f.db_name], tpe := .unique }
    else none

/-- Resolution of the field names of one index definition
(lines 120–124); an unknown name is
`expect("Unknown field in index directive.")`. -/
def resolveIndexFields (m : Model) : List String → CalcM (List Field)
  | [] => .ok []
  | n :: rest =>
      match m.find_field n with
      | some f => (resolveIndexFields m rest).bind fun fs => .ok (f :: fs)
      | none => .panic "Unknown field in index directive."

/-- The composite indexes (lines 119–143). -/
def multipleFieldIndexes (m : Model) : List IndexDefinition → CalcM (List SqlIndex)
  | [] => .ok []
  | idx :: rest =>
      (resolveIndexFields m idx.fields).bind fun referenced_fields =>
      (multipleFieldIndexes m rest).bind fun out =>
      .ok ({ name := idx.name.getD (m.db_name ++ "."
               ++ String.intercalate "_" (referenced_fields.map Field.db_name)),
             columns := referenced_fields.map Field.db_name,
             tpe := if idx.tpe = .unique then .unique else .normal } :: out)

structure ModelTable where
  table : SqlTable
  model : Model
deriving Repr, DecidableEq

/-- `calculate_model_tables` (lines 62–159). -/
def calculate_model_tables (dm : Datamodel) (info : DatabaseInfo) :
    List Model → CalcM (List ModelTable)
  | [] => .ok []
  | m :: rest =>
      (calcColumns dm info m.fields).bind fun columns =>
      (multipleFieldIndexes m m.indices).bind fun multiIdx =>
      (calculate_model_tables dm info rest).bind fun tables =>
      .ok ({ model := m,
             table := { name := m.db_name,
                        columns := columns,
                        indices := singleFieldIndexes m ++ multiIdx,
                        primary_key := some
                          { columns := (id_fields m).map Field.db_name,
                            sequence := none },
                        foreign_keys := [] } } :: tables)

/-! Relations. -/

inductive TempManifestationHolder where
  | inline (in_table_of_model : String) (column : String)
      (referenced_fields : List String)
  | table
deriving Repr, DecidableEq

/-- `TempRelationHolder`. The fields `one_to_one`, `table_name`,
`model_a_column` and `model_b_column` stand for the methods
`is_one_to_one()`, `table_name()`, `model_a_column()` and
`model_b_column()` of the external `prisma_models` crate (modelled from
the spec as given data of the relation). -/
structure TempRelationHolder where
  model_a : Model
  model_b : Model
  manifestation : TempManifestationHolder
  one_to_one : Bool
  table_name : String
  model_a_column : String
  model_b_column : String
deriving Repr, DecidableEq

/-- `add_one_to_one_relation_unique_index` (lines 509–517). -/
def add_one_to_one_relation_unique_index (t : SqlTable) (column_name : String) :
    SqlTable :=
  { t with indices := t.indices
      ++ [{ name := t.name ++ "_" ++ column_name,
            columns := [column_name], tpe := .unique }] }

/-- The referenced-fields resolution of
`add_inline_relations_to_model_tables` (lines 180–202): empty means the
peer's identifier fields; otherwise filter the peer's fields and fail
with a typed `SqlError::Generic` when any name is unknown. -/
def resolveReferencedFields (related_model : Model)
    (referenced_fields : List String) : CalcM (List Field) :=
  if referenced_fields.isEmpty then
    .ok (id_fields related_model)
  else
    let fields := related_model.fields.filter fun field =>
      referenced_fields.any fun referenced => referenced = field.name
    if fields.length = referenced_fields.length then
      .ok fields
    else
      .err (.generic ("References to unknown fields " ++ toString referenced_fields
        ++ " on `" ++ related_model.name ++ "`"))

/-- The per-referenced-field FK columns of the multi-field branch
(lines 216–229): one column `"{column}_{ref_db_name}"` per referenced
field. -/
def fkColumnsMulti (column_name : String) (field : Field) :
    List Field → CalcM (List SqlColumn)
  | [] => .ok []
  | rf :: rest =>
      (scalar_type_for_field rf).bind fun st =>
      (column_type_for_scalar_type st (column_arity field)).bind fun tpe =>
      (fkColumnsMulti column_name field rest).bind fun cols =>
      .ok ({ name := column_name ++ "_" ++ rf.db_name, tpe := tpe,
             default := none, auto_increment := false } :: cols)

/-- The FK column construction (lines 204–229): one column named after
the relation's storage field when exactly one field is referenced,
otherwise one column `"{column}_{ref_db_name}"` per referenced field. -/
def mkFkColumns (column_name : String) (field : Field) :
    List Field → CalcM (List SqlColumn)
  | [rf] =>
      (scalar_type_for_field rf).bind fun st =>
      (column_type_for_scalar_type st (column_arity field)).bind fun tpe =>
      .ok [{ name := column_name, tpe := tpe, default := none,
             auto_increment := false }]
  | rfs => fkColumnsMulti column_name field rfs

/-- Processing of a single relation against a single model table
(the loop body of `add_inline_relations_to_model_tables`,
lines 165–253). -/
def applyRelation (mt : ModelTable) (r : TempRelationHolder) :
    CalcM ModelTable :=
  match r.manifestation with
  | .inline in_model column_name referenced =>
      if in_model = mt.model.name then
        let model := if mt.model = r.model_a then r.model_a else r.model_b
        let related_model := if mt.model = r.model_a then r.model_b else r.model_a
        match model.fields.find? (fun f => f.db_name = column_name) with
        | none => .panic "called `Option::unwrap()` on a `None` value"
        | some field =>
            (resolveReferencedFields related_model referenced).bind
              fun referenced_fields =>
            (mkFkColumns column_name field referenced_fields).bind fun columns =>
            let fk : SqlForeignKey :=
              { constraint_name := none,
                columns := columns.map (fun c => c.name),
                referenced_table := related_model.db_name,
                referenced_columns := referenced_fields.map Field.db_name,
                on_delete_action :=
                  match column_arity field with
                  | .required => .restrict
                  | _ => .setNull }
            let table := { mt.table with
              columns := mt.table.columns ++ columns,
              foreign_keys := mt.table.foreign_keys ++ [fk] }
            let table :=
              if r.one_to_one then
                add_one_to_one_relation_unique_index table column_name
              else table
            .ok { mt with table := table }
      else .ok mt
  | .table => .ok mt

def applyRelations (rels : List TempRelationHolder) (mt : ModelTable) :
    CalcM ModelTable :=
  match rels with
  | [] => .ok mt
  | r :: rest => (applyRelation mt r).bind (applyRelations rest)

/-- `add_inline_relations_to_model_tables` (lines 161–258). -/
def add_inline_relations_to_model_tables (rels : List TempRelationHolder) :
    List ModelTable → CalcM (List SqlTable)
  | [] => .ok []
  | mt :: rest =>
      (applyRelations rels mt).bind fun mtOut =>
      (add_inline_relations_to_model_tables rels rest).bind fun ts =>
      .ok (mtOut.table :: ts)

/-- `relation_table_columns` (lines 319–349). Note the guard is on the
**compound** `id_fields` list of the model, not on the `id_fields`
iterator. -/
def relation_table_columns (referenced_model : Model)
    (reference_field_name : String) : CalcM (List SqlColumn) :=
  if referenced_model.id_fields.isEmpty then
    let unique_field := referenced_model.fields.find? fun f => f.is_unique
    let id_field := referenced_model.fields.find? fun f => f.is_id
    match id_field.or unique_field with
    | none => .panic ("No unique criteria found in model " ++ referenced_model.name)
    | some uf =>
        (column_type uf).bind fun tpe =>
        .ok [{ name := reference_field_name, tpe := tpe, default := none,
               auto_increment := false }]
  else
    (id_fields referenced_model).foldr (fun rf acc =>
      (column_type rf).bind fun tpe =>
      acc.bind fun cols =>
      .ok ({ name := reference_field_name ++ "_" ++ rf.db_name, tpe := tpe,
             default := none, auto_increment := false } :: cols)) (.ok [])

/-- `calculate_relation_tables` (lines 260–312). -/
def calculate_relation_tables : List TempRelationHolder → CalcM (List SqlTable)
  | [] => .ok []
  | r :: rest =>
      match r.manifestation with
      | .table =>
          (relation_table_columns r.model_a r.model_a_column).bind fun a_columns =>
          (relation_table_columns r.model_b r.model_b_column).bind fun b_columns =>
          let foreign_keys : List SqlForeignKey :=
            [{ constraint_name := none,
               columns := a_columns.map (fun c => c.name),
               referenced_table := r.model_a.db_name,
               referenced_columns := (unique_criteria r.model_a).map Field.db_name,
               on_delete_action := .cascade },
             { constraint_name := none,
               columns := b_columns.map (fun c => c.name),
               referenced_table := r.model_b.db_name,
               referenced_columns := (unique_criteria r.model_b).map Field.db_name,
               on_delete_action := .cascade }]
          let columns := a_columns ++ b_columns
          let index : SqlIndex :=
            { name := r.table_name ++ "_AB_unique",
              columns := columns.map (fun c => c.name), tpe := .unique }
          (calculate_relation_tables rest).bind fun ts =>
          .ok ({ name := r.table_name, columns := columns, indices := [index],
                 primary_key := none, foreign_keys := foreign_keys } :: ts)
      | .inline _ _ _ => calculate_relation_tables rest

/-- `calculate_enums` (lines 49–60). -/
def calculate_enums (dm : Datamodel) : List SqlEnum :=
  dm.enums.map fun e => { name := e.database_name.getD e.name, values := e.values }

/-- Byte-wise (`str::cmp`) string comparison, `a ≤ b`, modelled as
lexicographic comparison of the character lists — for valid UTF-8
strings byte-wise order and code-point-lexicographic order coincide. -/
def charListLe : List Char → List Char → Bool
  | [], _ => true
  | _ :: _, [] => false
  | a :: as, b :: bs =>
      if a < b then true
      else if b < a then false
      else charListLe as bs

/-- `a.cmp(b).is_le()` on strings. -/
def strLe (a b : String) : Bool :=
  charListLe a.toList b.toList

/-- The column-name comparison `|a, b| a.name.as_str().cmp(b.name.as_str())`
of `calculate_internal`, as a `≤` relation. -/
def colNameLe (a b : SqlColumn) : Prop :=
  strLe a.name b.name = true

instance : DecidableRel colNameLe := fun a b => by
  unfold colNameLe
  infer_instance

/-- The final per-table column sort of `calculate_internal`
(lines 32–37): sort by byte-wise column-name comparison.
`sort_unstable_by` guarantees a sorted permutation of the columns;
insertion sort realises one. -/
def sortColumns (cols : List SqlColumn) : List SqlColumn :=
  cols.insertionSort colNameLe

/-- `calculate` / `calculate_internal` (lines 15–47). The relation list
is the output of the external `DatamodelConverter::calculate_relations`. -/
def calculate (dm : Datamodel) (info : DatabaseInfo)
    (rels : List TempRelationHolder) : CalcM SqlSchema :=
  (calculate_model_tables dm info dm.models).bind fun mts =>
  (add_inline_relations_to_model_tables rels mts).bind fun model_tables =>
  (calculate_relation_tables rels).bind fun relation_tables =>
  let tables := (model_tables ++ relation_tables).map fun t =>
    { t with columns := sortColumns t.columns }
  .ok { tables := tables, enums := calculate_enums dm, sequences := [] }

end Calculator

namespace Calculator

theorem charListLe_total : ∀ a b : List Char,
    charListLe a b = true ∨ charListLe b a = true
  | [], _ => Or.inl rfl
  | _ :: _, [] => Or.inr rfl
  | a :: as, b :: bs => by
      by_cases hab : a < b
      · left
        simp [charListLe, hab]
      · by_cases hba : b < a
        · right
          simp [charListLe, hba]
        · rcases charListLe_total as bs with h | h
          · left
            simp [charListLe, hab, hba, h]
          · right
            simp [charListLe, hab, hba, h]

theorem charListLe_trans : ∀ a b c : List Char,
    charListLe a b = true → charListLe b c = true → charListLe a c = true
  | [], _, _, _, _ => rfl
  | _ :: _, [], _, h1, _ => by simp [charListLe] at h1
  | _ :: _, _ :: _, [], _, h2 => by simp [charListLe] at h2
  | a :: as, b :: bs, c :: cs, h1, h2 => by
      simp only [charListLe] at h1 h2 ⊢
      by_cases hab : a < b
      · by_cases hbc : b < c
        · rw [if_pos (lt_trans hab hbc)]
        · rw [if_pos hab] at h1
          rw [if_neg hbc] at h2
          by_cases hcb : c < b
          · rw [if_pos hcb] at h2
            exact absurd h2 (by simp)
          · have hbceq : b = c := le_antisymm (not_lt.mp hcb) (not_lt.mp hbc)
            subst hbceq
            rw [if_pos hab]
      · rw [if_neg hab] at h1
        by_cases hba : b < a
        · rw [if_pos hba] at h1
          exact absurd h1 (by simp)
        · rw [if_neg hba] at h1
          have habeq : a = b := le_antisymm (not_lt.mp hba) (not_lt.mp hab)
          subst habeq
          by_cases hac : a < c
          · rw [if_pos hac]
          · rw [if_neg hac] at h2 ⊢
            by_cases hca : c < a
            · rw [if_pos hca] at h2
              exact absurd h2 (by simp)
            · rw [if_neg hca] at h2 ⊢
              exact charListLe_trans as bs cs h1 h2

instance : IsTotal SqlColumn colNameLe :=
  ⟨fun a b => charListLe_total a.name.toList b.name.toList⟩

instance : IsTrans SqlColumn colNameLe :=
  ⟨fun _ _ _ h1 h2 => charListLe_trans _ _ _ h1 h2⟩

/-- C8: in every schema `calculate` successfully returns, the columns of
every table — model tables and relation tables alike — are sorted
ascending by byte-wise comparison of column names. -/
theorem calculate_columns_sorted (dm : Datamodel) (info : DatabaseInfo)
    (rels : List TempRelationHolder) (schema : SqlSchema)
    (h : calculate dm info rels = .ok schema) :
    ∀ t ∈ schema.tables, List.Sorted colNameLe t.columns := by
  unfold calculate at h
  cases hmt : calculate_model_tables dm info dm.models with
  | err e =>
    rw [hmt] at h
    simp only [RResult.bind_err] at h
    exact absurd h (by simp)
  | panic m =>
    rw [hmt] at h
    simp only [RResult.bind_panic] at h
    exact absurd h (by simp)
  | ok mts =>
    rw [hmt, RResult.bind_ok] at h
    cases hadd : add_inline_relations_to_model_tables rels mts with
    | err e =>
      rw [hadd] at h
      simp only [RResult.bind_err] at h
      exact absurd h (by simp)
    | panic m =>
      rw [hadd] at h
      simp only [RResult.bind_panic] at h
      exact absurd h (by simp)
    | ok model_tables =>
      rw [hadd, RResult.bind_ok] at h
      cases hrel : calculate_relation_tables rels with
      | err e =>
        rw [hrel] at h
        simp only [RResult.bind_err] at h
        exact absurd h (by simp)
      | panic m =>
        rw [hrel] at h
        simp only [RResult.bind_panic] at h
        exact absurd h (by simp)
      | ok relation_tables =>
        rw [hrel, RResult.bind_ok] at h
        injection h with h2
        subst h2
        intro t ht
        simp only [List.mem_map] at ht
        obtain ⟨t0, -, rfl⟩ := ht
        show List.Sorted colNameLe (sortColumns t0.columns)
        exact List.sorted_insertionSort colNameLe t0.columns

end Calculator

namespace Calculator

/-- A calculator computation that cannot return a typed `SqlError`
(it may still panic). -/
def noErr {α : Type} : CalcM α → Prop
  | .err _ => False
  | _ => True

theorem noErr_bind {α β : Type} {r : CalcM α} {f : α → CalcM β}
    (hr : noErr r) (hf : ∀ a, noErr (f a)) : noErr (r.bind f) := by
  cases r with
  | ok a => exact hf a
  | err e => exact hr
  | panic m => trivial

theorem noErr_resolve {α : Type} {r : CalcM α} (h : noErr r) :
    (∃ a, r = .ok a) ∨ (∃ m, r = .panic m) := by
  cases r with
  | ok a => exact Or.inl ⟨a, rfl⟩
  | err e => exact absurd h (by simp [noErr])
  | panic m => exact Or.inr ⟨m, rfl⟩

theorem noErr_column_type_for_scalar_type (t : ScalarType) (a : SqlColumnArity) :
    noErr (column_type_for_scalar_type t a) := by
  cases t <;> trivial

theorem noErr_scalar_type_for_field (f : Field) :
    noErr (scalar_type_for_field f) := by
  unfold scalar_type_for_field
  cases f.field_type <;> trivial

theorem noErr_column_type (f : Field) : noErr (column_type f) :=
  noErr_bind (noErr_scalar_type_for_field f)
    fun st => noErr_column_type_for_scalar_type st (column_arity f)

theorem noErr_default_migration_value (ft : FieldType) (dm : Datamodel) :
    noErr (default_migration_value ft dm) := by
  unfold default_migration_value
  cases ft with
  | base t => cases t <;> trivial
  | enum name =>
      cases h : dm.find_enum name with
      | some e =>
          simp only [h]
          cases hv : e.values.head? <;> simp only [hv] <;> trivial
      | none =>
          simp only [h]
          trivial
  | relation => trivial

theorem noErr_migration_value_new (f : Field) (dm : Datamodel) :
    noErr (f.migration_value_new dm) := by
  unfold Field.migration_value_new
  apply noErr_bind
  · cases hdv : f.default_value with
    | none =>
        cases har : f.arity
        all_goals simp only
        · apply noErr_bind (noErr_default_migration_value f.field_type dm)
          intro v
          trivial
        · trivial
        · trivial
    | some dv =>
        cases dv with
        | single s => trivial
        | expression g =>
            apply noErr_bind (noErr_default_migration_value f.field_type dm)
            intro v
            trivial
  · intro a
    cases a <;> trivial

theorem noErr_enum_column_type (f : Field) (info : DatabaseInfo) (db : String) :
    noErr (enum_column_type f info db) := by
  unfold enum_column_type
  cases info.sql_family
  · trivial
  · trivial
  · exact noErr_column_type f
  · exact noErr_column_type f

theorem noErr_calcColumns (dm : Datamodel) (info : DatabaseInfo) :
    ∀ fields, noErr (calcColumns dm info fields)
  | [] => trivial
  | f :: rest => by
      unfold calcColumns
      cases hft : f.field_type with
      | base t =>
          exact noErr_bind (noErr_column_type f) fun tpe =>
            noErr_bind (noErr_migration_value_new f dm) fun dflt =>
              noErr_bind (noErr_calcColumns dm info rest) fun cols => True.intro
      | enum ename =>
          cases he : dm.find_enum ename with
          | none =>
              simp only [he]
              trivial
          | some e =>
              simp only [he]
              exact noErr_bind
                (noErr_enum_column_type f info (e.database_name.getD ename))
                fun tpe =>
                  noErr_bind (noErr_migration_value_new f dm) fun dflt =>
                    noErr_bind (noErr_calcColumns dm info rest) fun cols =>
                      True.intro
      | relation => exact noErr_calcColumns dm info rest

/-- `resolveIndexFields` either resolves all names or panics with the
`expect` message of line 123. -/
theorem resolveIndexFields_cases (m : Model) : ∀ names,
    (∃ fs, resolveIndexFields m names = .ok fs) ∨
      resolveIndexFields m names = .panic "Unknown field in index directive."
  | [] => Or.inl ⟨[], rfl⟩
  | n0 :: rest => by
      cases hf : m.find_field n0 with
      | none =>
          right
          simp [resolveIndexFields, hf]
      | some f =>
          rcases resolveIndexFields_cases m rest with ⟨fs, hok⟩ | hp
          · left
            exact ⟨f :: fs, by simp [resolveIndexFields, hf, hok]⟩
          · right
            simp [resolveIndexFields, hf, hp]

theorem noErr_resolveIndexFields (m : Model) (names : List String) :
    noErr (resolveIndexFields m names) := by
  rcases resolveIndexFields_cases m names with ⟨fs, hok⟩ | hp
  · rw [hok]; trivial
  · rw [hp]; trivial

theorem noErr_multipleFieldIndexes (m : Model) :
    ∀ idxs, noErr (multipleFieldIndexes m idxs)
  | [] => trivial
  | idx :: rest => by
      unfold multipleFieldIndexes
      apply noErr_bind (noErr_resolveIndexFields m idx.fields)
      intro fs
      apply noErr_bind (noErr_multipleFieldIndexes m rest)
      intro out
      trivial

/-- An unresolvable name in some index makes `resolveIndexFields` panic. -/
theorem resolveIndexFields_panics (m : Model) : ∀ names,
    (∃ n ∈ names, m.find_field n = none) →
    resolveIndexFields m names = .panic "Unknown field in index directive."
  | [], h => by simp at h
  | n0 :: rest, h => by
      cases hf : m.find_field n0 with
      | none => simp [resolveIndexFields, hf]
      | some f =>
          obtain ⟨n, hn, hfind⟩ := h
          rcases List.mem_cons.mp hn with rfl | hn2
          · rw [hf] at hfind
            cases hfind
          · have hp := resolveIndexFields_panics m rest ⟨n, hn2, hfind⟩
            simp [resolveIndexFields, hf, hp]

theorem multipleFieldIndexes_panics (m : Model) : ∀ idxs,
    (∃ idx ∈ idxs, ∃ n ∈ idx.fields, m.find_field n = none) →
    multipleFieldIndexes m idxs = .panic "Unknown field in index directive."
  | [], h => by simp at h
  | idx0 :: rest, h => by
      rcases resolveIndexFields_cases m idx0.fields with ⟨fs, hok⟩ | hp
      · obtain ⟨idx, hidx, n, hn, hfind⟩ := h
        rcases List.mem_cons.mp hidx with rfl | hidx2
        · have hp := resolveIndexFields_panics m idx.fields ⟨n, hn, hfind⟩
          rw [hp] at hok
          cases hok
        · have hrest := multipleFieldIndexes_panics m rest ⟨idx, hidx2, n, hn, hfind⟩
          simp [multipleFieldIndexes, hok, hrest]
      · simp [multipleFieldIndexes, hp]

theorem calculate_model_tables_panics (dm : Datamodel) (info : DatabaseInfo) :
    ∀ models,
    (∃ m ∈ models, ∃ idx ∈ m.indices, ∃ n ∈ idx.fields, m.find_field n = none) →
    ∃ msg, calculate_model_tables dm info models = .panic msg
  | [], h => by simp at h
  | m0 :: rest, h => by
      rcases noErr_resolve (noErr_calcColumns dm info m0.fields) with
        ⟨cols, hok⟩ | ⟨msg, hp⟩
      · rcases noErr_resolve (noErr_multipleFieldIndexes m0 m0.indices) with
          ⟨mi, hok2⟩ | ⟨msg2, hp2⟩
        · obtain ⟨m, hm, idx, hidx, n, hn, hfind⟩ := h
          rcases List.mem_cons.mp hm with rfl | hm2
          · have hp := multipleFieldIndexes_panics m m.indices ⟨idx, hidx, n, hn, hfind⟩
            rw [hp] at hok2
            cases hok2
          · obtain ⟨msg, hrest⟩ := calculate_model_tables_panics dm info rest
              ⟨m, hm2, idx, hidx, n, hn, hfind⟩
            exact ⟨msg, by simp [calculate_model_tables, hok, hok2, hrest]⟩
        · exact ⟨msg2, by simp [calculate_model_tables, hok, hp2]⟩
      · exact ⟨msg, by simp [calculate_model_tables, hp]⟩

/-- C2 (amended): when some model index names a field that does not exist
on that model, `calculate` does **not** return a typed `SchemaError`: the
unresolvable name hits `expect("Unknown field in index directive.")`
(line 123) and the call panics. -/
theorem calculate_unknown_index_field_panics
    (dm : Datamodel) (info : DatabaseInfo) (rels : List TempRelationHolder)
    (m : Model) (hm : m ∈ dm.models) (idx : IndexDefinition)
    (hidx : idx ∈ m.indices) (n : String) (hn : n ∈ idx.fields)
    (hfind : m.find_field n = none) :
    ∃ msg, calculate dm info rels = .panic msg := by
  obtain ⟨msg, hmt⟩ := calculate_model_tables_panics dm info dm.models
    ⟨m, hm, idx, hidx, n, hn, hfind⟩
  exact ⟨msg, by simp [calculate, hmt]⟩

/-- The model refuting C2 as stated: `A` has an index over the
non-existent field `missing`. -/
def cBadModel : Model :=
  { name := "A", database_name := none,
    fields := [
      { name := "id", database_name := none, arity := .required,
        field_type := .base .int, is_unique := false, is_id := true,
        default_value := none } ],
    indices := [ { name := none, fields := ["missing"], tpe := .normal } ],
    id_fields := [] }

/-- The datamodel refuting C2 as stated. -/
def cDmBadIndex : Datamodel :=
  { models := [cBadModel], enums := [] }

/-- C2 (counterexample to the claim as stated): on `cDmBadIndex`,
`calculate` panics — it does not return a typed `SchemaError`. -/
theorem calculate_unknown_index_field_counterexample :
    calculate cDmBadIndex ⟨.postgres⟩ []
      = .panic "Unknown field in index directive." := rfl

/-- Witness for the amended C2 at the concrete datamodel. -/
theorem calculate_unknown_index_field_panics_witness :
    (cBadModel ∈ cDmBadIndex.models ∧
        cBadModel.find_field "missing" = none) ∧
      ∃ msg, calculate cDmBadIndex ⟨.postgres⟩ [] = .panic msg :=
  ⟨⟨by simp [cDmBadIndex], rfl⟩,
    calculate_unknown_index_field_panics cDmBadIndex ⟨.postgres⟩ []
      cBadModel (by simp [cDmBadIndex])
      { name := none, fields := ["missing"], tpe := .normal }
      (by simp [cBadModel]) "missing" (by simp) rfl⟩

end Calculator

namespace Calculator

theorem fkColumnsMulti_names (column_name : String) (field : Field) :
    ∀ (l : List Field) (cols : List SqlColumn),
    fkColumnsMulti column_name field l = .ok cols →
    cols.map (fun c => c.name) = l.map fun rf => column_name ++ "_" ++ rf.db_name
  | [], cols, h => by
      injection h with h2
      subst h2
      rfl
  | rf :: rest, cols, h => by
      unfold fkColumnsMulti at h
      cases hst : scalar_type_for_field rf with
      | err e => rw [hst] at h; simp only [RResult.bind_err] at h; cases h
      | panic m => rw [hst] at h; simp only [RResult.bind_panic] at h; cases h
      | ok st =>
          rw [hst, RResult.bind_ok] at h
          cases hct : column_type_for_scalar_type st (column_arity field) with
          | err e => rw [hct] at h; simp only [RResult.bind_err] at h; cases h
          | panic m => rw [hct] at h; simp only [RResult.bind_panic] at h; cases h
          | ok tpe =>
              rw [hct, RResult.bind_ok] at h
              cases hrest : fkColumnsMulti column_name field rest with
              | err e => rw [hrest] at h; simp only [RResult.bind_err] at h; cases h
              | panic m =>
                  rw [hrest] at h; simp only [RResult.bind_panic] at h; cases h
              | ok cols2 =>
                  rw [hrest, RResult.bind_ok] at h
                  injection h with h2
                  subst h2
                  simp only [List.map_cons]
                  rw [fkColumnsMulti_names column_name field rest cols2 hrest]

theorem mkFkColumns_single (column_name : String) (field : Field)
    (rf : Field) (cols : List SqlColumn)
    (h : mkFkColumns column_name field [rf] = .ok cols) :
    cols.map (fun c => c.name) = [column_name] := by
  have h2 : ((scalar_type_for_field rf).bind fun st =>
      (column_type_for_scalar_type st (column_arity field)).bind fun tpe =>
      RResult.ok [(⟨column_name, tpe, none, false⟩ : SqlColumn)]) = .ok cols := h
  clear h
  rename' h2 => h
  cases hst : scalar_type_for_field rf with
  | err e => rw [hst] at h; simp only [RResult.bind_err] at h; cases h
  | panic m => rw [hst] at h; simp only [RResult.bind_panic] at h; cases h
  | ok st =>
      rw [hst, RResult.bind_ok] at h
      cases hct : column_type_for_scalar_type st (column_arity field) with
      | err e => rw [hct] at h; simp only [RResult.bind_err] at h; cases h
      | panic m => rw [hct] at h; simp only [RResult.bind_panic] at h; cases h
      | ok tpe =>
          rw [hct, RResult.bind_ok] at h
          injection h with h2
          subst h2
          rfl

/-- C3 (amended): an inline one-to-one relation adds to the inlined
table, besides the FK columns and the foreign key, a UNIQUE index named
`"{table}_{column}"` covering exactly the single column named
`"{column}"` (the relation's storage field name). When one field is
referenced this is the FK column set; when several fields are referenced
the FK columns are `"{column}_{ref_db_name}"`, which the index does not
cover. -/
theorem applyRelation_one_to_one_unique_index
    (mt : ModelTable) (r : TempRelationHolder)
    (column : String) (refs : List String)
    (hman : r.manifestation = .inline mt.model.name column refs)
    (h11 : r.one_to_one = true)
    (field : Field)
    (hfield : ((if mt.model = r.model_a then r.model_a else r.model_b).fields.find?
        fun f => f.db_name = column) = some field)
    (referenced_fields : List Field)
    (href : resolveReferencedFields
        (if mt.model = r.model_a then r.model_b else r.model_a) refs
        = .ok referenced_fields)
    (cols : List SqlColumn)
    (hcols : mkFkColumns column field referenced_fields = .ok cols) :
    applyRelation mt r
      = .ok { mt with table := { mt.table with
          columns := mt.table.columns ++ cols,
          foreign_keys := mt.table.foreign_keys ++
            [{ constraint_name := none,
               columns := cols.map fun c => c.name,
               referenced_table :=
                 (if mt.model = r.model_a then r.model_b else r.model_a).db_name,
               referenced_columns := referenced_fields.map Field.db_name,
               on_delete_action := match column_arity field with
                 | .required => .restrict
                 | _ => .setNull }],
          indices := mt.table.indices ++
            [{ name := mt.table.name ++ "_" ++ column,
               columns := [column], tpe := .unique }] } } ∧
      (∀ rf, referenced_fields = [rf] →
        cols.map (fun c => c.name) = [column]) ∧
      (1 < referenced_fields.length →
        cols.map (fun c => c.name)
          = referenced_fields.map fun rf => column ++ "_" ++ rf.db_name) := by
  refine ⟨?_, ?_, ?_⟩
  · unfold applyRelation
    rw [hman]
    simp only [eq_self_iff_true, if_true, hfield, href, RResult.bind_ok, hcols,
      h11, add_one_to_one_relation_unique_index]
  · intro rf hrf
    subst hrf
    exact mkFkColumns_single column field rf cols hcols
  · intro hlen
    cases referenced_fields with
    | nil => simp at hlen
    | cons a as =>
      cases as with
      | nil => simp at hlen
      | cons b bs =>
        exact fkColumnsMulti_names column field (a :: b :: bs) cols hcols

end Calculator

namespace Calculator

/-! Concrete one-to-one relation referencing **two** fields of the peer
model, for C3. -/

def cR1Field : Field :=
  { name := "r1", database_name := none, arity := .required,
    field_type := .base .int, is_unique := false, is_id := false,
    default_value := none }

def cR2Field : Field :=
  { name := "r2", database_name := none, arity := .required,
    field_type := .base .int, is_unique := false, is_id := false,
    default_value := none }

def cUserC3 : Model :=
  { name := "User", database_name := none, fields := [cR1Field, cR2Field],
    indices := [], id_fields := [] }

def cRelField : Field :=
  { name := "user", database_name := none, arity := .required,
    field_type := .relation, is_unique := false, is_id := false,
    default_value := none }

def cProfileC3 : Model :=
  { name := "Profile", database_name := none,
    fields := [
      { name := "id", database_name := none, arity := .required,
        field_type := .base .int, is_unique := false, is_id := true,
        default_value := none },
      cRelField ],
    indices := [], id_fields := [] }

def cRelC3 : TempRelationHolder :=
  { model_a := cProfileC3, model_b := cUserC3,
    manifestation := .inline "Profile" "user" ["r1", "r2"],
    one_to_one := true, table_name := "_ProfileToUser",
    model_a_column := "A", model_b_column := "B" }

def cMtC3 : ModelTable :=
  ⟨{ name := "Profile", columns := [], indices := [], primary_key := none,
     foreign_keys := [] }, cProfileC3⟩

def cDmC3 : Datamodel := { models := [cProfileC3, cUserC3], enums := [] }

/-- The two FK columns the relation of `cRelC3` produces. -/
def cFkColsC3 : List SqlColumn :=
  [{ name := "user_r1", tpe := ⟨.int, .required⟩, default := none,
     auto_increment := false },
   { name := "user_r2", tpe := ⟨.int, .required⟩, default := none,
     auto_increment := false }]

/-- Witness for the amended C3 at the concrete two-field relation. -/
theorem applyRelation_one_to_one_unique_index_witness :
    (cRelC3.manifestation = .inline cMtC3.model.name "user" ["r1", "r2"] ∧
      cRelC3.one_to_one = true ∧
      ((if cMtC3.model = cRelC3.model_a then cRelC3.model_a
          else cRelC3.model_b).fields.find? fun f => f.db_name = "user")
        = some cRelField ∧
      resolveReferencedFields
          (if cMtC3.model = cRelC3.model_a then cRelC3.model_b
            else cRelC3.model_a) ["r1", "r2"]
        = .ok [cR1Field, cR2Field] ∧
      mkFkColumns "user" cRelField [cR1Field, cR2Field] = .ok cFkColsC3) ∧
    (applyRelation cMtC3 cRelC3
        = .ok { cMtC3 with table := { cMtC3.table with
            columns := cMtC3.table.columns ++ cFkColsC3,
            foreign_keys := cMtC3.table.foreign_keys ++
              [{ constraint_name := none,
                 columns := cFkColsC3.map fun c => c.name,
                 referenced_table :=
                   (if cMtC3.model = cRelC3.model_a then cRelC3.model_b
                     else cRelC3.model_a).db_name,
                 referenced_columns := [cR1Field, cR2Field].map Field.db_name,
                 on_delete_action := match column_arity cRelField with
                   | .required => .restrict
                   | _ => .setNull }],
            indices := cMtC3.table.indices ++
              [{ name := cMtC3.table.name ++ "_" ++ "user",
                 columns := ["user"], tpe := .unique }] } } ∧
      (1 < ([cR1Field, cR2Field] : List Field).length →
        cFkColsC3.map (fun c => c.name)
          = [cR1Field, cR2Field].map fun rf => "user" ++ "_" ++ rf.db_name)) :=
  ⟨⟨rfl, rfl, rfl, rfl, rfl⟩,
    (applyRelation_one_to_one_unique_index cMtC3 cRelC3 "user" ["r1", "r2"]
        rfl rfl cRelField rfl [cR1Field, cR2Field] rfl cFkColsC3 rfl).1,
    (applyRelation_one_to_one_unique_index cMtC3 cRelC3 "user" ["r1", "r2"]
        rfl rfl cRelField rfl [cR1Field, cR2Field] rfl cFkColsC3 rfl).2.2⟩

/-- The named table of a successful calculation, for the counterexample. -/
def c3TableOf (r : CalcM SqlSchema) (tname : String) : Option SqlTable :=
  match r with
  | .ok s => s.tables.find? fun t => t.name = tname
  | _ => none

/-- C3 (counterexample to the claim as stated): for the one-to-one
inline relation of `cRelC3`, which references the two fields `r1`, `r2`,
the inlined `Profile` table carries the UNIQUE index `Profile_user` over
the single column `user`, while the foreign key's column set is
`user_r1, user_r2` — the index does *not* cover the FK column set. -/
theorem one_to_one_unique_index_counterexample :
    (c3TableOf (calculate cDmC3 ⟨.postgres⟩ [cRelC3]) "Profile").map
        (fun t => t.indices)
      = some [{ name := "Profile_user", columns := ["user"], tpe := .unique }] ∧
    (c3TableOf (calculate cDmC3 ⟨.postgres⟩ [cRelC3]) "Profile").map
        (fun t => t.foreign_keys.map fun fk => fk.columns)
      = some [["user_r1", "user_r2"]] ∧
    (["user"] : List String) ≠ ["user_r1", "user_r2"] :=
  ⟨rfl, rfl, by decide⟩

end Calculator

namespace Calculator

/-- A small datamodel on which `calculate` succeeds, for the C8 witness:
field declaration order `id`, `name`, `age` differs from the sorted
column order `age`, `id`, `name`. -/
def cDmSorted : Datamodel :=
  { models := [
      { name := "User", database_name := none,
        fields := [
          { name := "id", database_name := none, arity := .required,
            field_type := .base .int, is_unique := false, is_id := true,
            default_value := some (.expression ⟨.autoincrement⟩) },
          { name := "name", database_name := none, arity := .required,
            field_type := .base .string, is_unique := false, is_id := false,
            default_value := none },
          { name := "age", database_name := none, arity := .optional,
            field_type := .base .int, is_unique := false, is_id := false,
            default_value := none } ],
        indices := [], id_fields := [] } ],
    enums := [] }

/-- The schema `calculate` returns on `cDmSorted`. -/
def cSchemaSorted : SqlSchema :=
  { tables := [
      { name := "User",
        columns := [
          { name := "age", tpe := ⟨.int, .nullable⟩, default := none,
            auto_increment := false },
          { name := "id", tpe := ⟨.int, .required⟩, default := none,
            auto_increment := true },
          { name := "name", tpe := ⟨.string, .required⟩, default := some "",
            auto_increment := false } ],
        indices := [],
        primary_key := some { columns := ["id"], sequence := none },
        foreign_keys := [] } ],
    enums := [], sequences := [] }

/-- Witness for C8: on `cDmSorted` the calculation succeeds and every
table's columns are sorted by name. -/
theorem calculate_columns_sorted_witness :
    calculate cDmSorted ⟨.postgres⟩ [] = .ok cSchemaSorted ∧
      ∀ t ∈ cSchemaSorted.tables, List.Sorted colNameLe t.columns :=
  ⟨rfl, calculate_columns_sorted cDmSorted ⟨.postgres⟩ [] cSchemaSorted rfl⟩

end Calculator

namespace GraphBuilder

open QueryBuilder (PrismaValue RecordIdentifier)

/-! ## Query graph builder — nested to-one update (update_nested.rs)

`connect_nested_update` and the helpers it uses from `write/utils.rs`
are translated from the sources. The surrounding entities live in
crates that are not among the sources and are modelled from the spec:
the `connector::Filter` algebra (kept symbolic), `ParsedInputValue`,
the query AST node records, `extract_filter`, the input assertions and
`update::update_record_node`. The graph itself is an arena: nodes are
indexed by creation order, edges reference node indices, and a
`ParentIds` edge owns its transform closure. -/

/-- Modelled from the spec: `ParsedInputValue` (the fragment the nested
update path consumes — single values, lists, maps). -/
inductive ParsedInputValue where
  | single (v : PrismaValue)
  | list (vs : List ParsedInputValue)
  | map (entries : List (String × ParsedInputValue))

/-- `ParsedInputValue::Single(PrismaValue::Null)`. -/
def ParsedInputValue.isNull : ParsedInputValue → Bool
  | .single .null => true
  | _ => false

/-- Modelled from the spec: the `connector::Filter` algebra as used
here — conjunction, disjunction, scalar equality, and the symbolic
result of `extract_filter` on a validated `where` map. -/
inductive Filter where
  | and (fs : List Filter)
  | or (fs : List Filter)
  | scalarEquals (field : String) (value : PrismaValue)
  | extracted (whereMap : List (String × ParsedInputValue)) (model : String)

/-- `Filter::empty()`. -/
def Filter.empty : Filter := .and []

/-- `IdFilter::filter for RecordIdentifier` (write/utils.rs,
lines 15–25): the conjunction of per-pair equalities. -/
def idFilter (r : RecordIdentifier) : Filter :=
  .and (r.pairs.map fun p => .scalarEquals p.1 p.2)

/-- Modelled from the spec: a model reference reduced to its name and
the field names of its primary identifier. -/
structure ModelRef where
  name : String
  primary_identifier : List String

/-- Modelled from the spec: a relation field reduced to what
`connect_nested_update` reads — `is_list`, the parent `model()` and the
`related_model()`. -/
structure RelationFieldRef where
  is_list : Bool
  model : ModelRef
  related_model : ModelRef

/-- Modelled from the spec: `QueryArguments` as produced from a filter. -/
structure QueryArguments where
  filter : Option Filter

/-- Modelled from the spec: `RelatedRecordsQuery` (query AST), the read
node created by `insert_find_children_by_parent_node`. -/
structure RelatedRecordsQuery where
  name : String
  «alias» : Option String
  parent_field : RelationFieldRef
  relation_parent_ids : Option (List RecordIdentifier)
  args : QueryArguments
  selected_fields : List String
  selection_order : List String

inductive ReadQuery where
  | relatedRecords (q : RelatedRecordsQuery)

/-- Modelled from the spec: `UpdateRecord` (query AST) — the model, the
filters accumulated through `add_filter`, and the update data. -/
structure UpdateRecord where
  model : String
  filters : List Filter
  args : List (String × ParsedInputValue)

/-- `add_filter`: record one more filter on the update. -/
def UpdateRecord.add_filter (u : UpdateRecord) (f : Filter) : UpdateRecord :=
  { u with filters := u.filters ++ [f] }

inductive WriteQuery where
  | updateRecord (u : UpdateRecord)

inductive Query where
  | read (q : ReadQuery)
  | write (q : WriteQuery)

inductive Node where
  | query (q : Query)
  | empty

inductive QueryGraphBuilderError where
  | assertionError (msg : String)
  | queryParserError (msg : String)
  | relationViolation

abbrev GBResult (α : Type) := RResult QueryGraphBuilderError α

/-- A typed edge; a `ParentIds` dependency owns its transform closure. -/
inductive QueryGraphDependency where
  | executionOrder
  | parentIds (identifier : List String)
      (transform : Node → List RecordIdentifier → GBResult Node)

structure Edge where
  source : Nat
  target : Nat
  dependency : QueryGraphDependency

/-- The query graph: arena-allocated nodes addressed by creation index. -/
structure QueryGraph where
  nodes : List Node
  edges : List Edge

/-- `QueryGraph::create_node`: append the node, return its index. -/
def QueryGraph.create_node (g : QueryGraph) (n : Node) : QueryGraph × Nat :=
  ({ g with nodes := g.nodes ++ [n] }, g.nodes.length)

/-- `QueryGraph::create_edge` (the cycle check cannot fail on the shapes
built here). -/
def QueryGraph.create_edge (g : QueryGraph) (s t : Nat)
    (d : QueryGraphDependency) : QueryGraph :=
  { g with edges := g.edges ++ [⟨s, t, d⟩] }

/-- `BTreeMap::remove`: the value under the key and the remaining map. -/
def mapRemove (m : List (String × ParsedInputValue)) (k : String) :
    Option (ParsedInputValue × List (String × ParsedInputValue)) :=
  match m with
  | [] => none
  | (k2, v) :: rest =>
      if k2 = k then some (v, rest)
      else (mapRemove rest k).map fun p => (p.1, (k2, v) :: p.2)

/-- Modelled from the spec: `InputAssertions::assert_size` — the `where`
map must have exactly `n` keys. -/
def assertSize (m : List (String × ParsedInputValue)) (n : Nat) :
    GBResult Unit :=
  if m.length = n then .ok ()
  else .err (.queryParserError "wrong argument cardinality")

/-- Modelled from the spec: `InputAssertions::assert_non_null` — no
value of the map may be null. -/
def assertNonNull (m : List (String × ParsedInputValue)) : GBResult Unit :=
  if m.any (fun e => e.2.isNull) then .err (.queryParserError "null where forbidden")
  else .ok ()

/-- Modelled from the spec: `extract_filter` (extractors are not among
the sources) turns a validated `where` map into a filter on the model;
kept symbolic. -/
def extract_filter (whereMap : List (String × ParsedInputValue))
    (model : ModelRef) : GBResult Filter :=
  .ok (.extracted whereMap model.name)

/-- `coerce_vec` (write/utils.rs, lines 40–46). -/
def coerce_vec : ParsedInputValue → List ParsedInputValue
  | .list l => l
  | m => [m]

/-- `insert_find_children_by_parent_node` (write/utils.rs,
lines 103–144): create the `RelatedRecordsQuery` read node selecting the
related model's primary identifier, filtered by `filter`, and connect
the parent to it with a `ParentIds` edge whose transform stores the
parent ids on the read node. -/
def insert_find_children_by_parent_node (g : QueryGraph) (parent : Nat)
    (parent_relation_field : RelationFieldRef) (filter : Filter) :
    QueryGraph × Nat :=
  let created := g.create_node (.query (.read (.relatedRecords
    { name := "find_children_by_parent",
      «alias» := none,
      parent_field := parent_relation_field,
      relation_parent_ids := none,
      args := ⟨some filter⟩,
      selected_fields := parent_relation_field.related_model.primary_identifier,
      selection_order := [] })))
  let g2 := created.1.create_edge parent created.2
    (.parentIds parent_relation_field.model.primary_identifier
      (fun node parent_ids =>
        match node with
        | .query (.read (.relatedRecords rq)) =>
            .ok (.query (.read (.relatedRecords
              { rq with relation_parent_ids := some parent_ids })))
        | other => .ok other))
  (g2, created.2)

/-- Modelled from the spec: `update::update_record_node`
(write/update.rs is not among the sources): append an `UpdateRecord`
write node carrying the given filter, model and data. -/
def update_record_node (g : QueryGraph) (filter : Filter) (model : ModelRef)
    (data : List (String × ParsedInputValue)) : QueryGraph × Nat :=
  g.create_node (.query (.write (.updateRecord
    { model := model.name, filters := [filter], args := data })))

/-- The `ParentIds` transform of the read→update edge of
`connect_nested_update` (update_nested.rs, lines 76–92): pop exactly one
parent id (`Vec::pop` takes the last); with none present fail with the
assertion error; otherwise inject the id as an additional filter on the
update node. -/
def nestedUpdateTransform (node : Node)
    (parent_ids : List RecordIdentifier) : GBResult Node :=
  match parent_ids.getLast? with
  | some parent_id =>
      .ok (match node with
        | .query (.write (.updateRecord ur)) =>
            .query (.write (.updateRecord (ur.add_filter (idFilter parent_id))))
        | other => other)
  | none =>
      .err (.assertionError
        "Expected a valid parent ID to be present for nested update to-one case.")

/-- The loop body of `connect_nested_update` (update_nested.rs,
lines 46–93) for one coerced value. -/
def nested_update_one (g : QueryGraph) (parent : Nat)
    (parent_relation_field : RelationFieldRef) (value : ParsedInputValue)
    (child_model : ModelRef) : GBResult QueryGraph :=
  let data_filterM : GBResult (ParsedInputValue × Filter) :=
    if parent_relation_field.is_list then
      match value with
      | .map m =>
          match mapRemove m "where" with
          | none => .panic "called `Option::unwrap()` on a `None` value"
          | some (whereVal, m1) =>
              match whereVal with
              | .map whereMap =>
                  (assertSize whereMap 1).bind fun _ =>
                  (assertNonNull whereMap).bind fun _ =>
                  (extract_filter whereMap child_model).bind fun filter =>
                  match mapRemove m1 "data" with
                  | none => .panic "called `Option::unwrap()` on a `None` value"
                  | some (dataVal, _) => .ok (dataVal, filter)
              | _ => .err (.queryParserError "expected an object")
      | _ => .err (.queryParserError "expected an object")
    else
      .ok (value, Filter.empty)
  data_filterM.bind fun data_filter =>
  let found := insert_find_children_by_parent_node g parent
    parent_relation_field data_filter.2
  let dataMapM : GBResult (List (String × ParsedInputValue)) :=
    match data_filter.1 with
    | .map dm => .ok dm
    | _ => .err (.queryParserError "expected an object")
  dataMapM.bind fun dataMap =>
  let upd := update_record_node found.1 Filter.empty child_model dataMap
  .ok (upd.1.create_edge found.2 upd.2
    (.parentIds child_model.primary_identifier nestedUpdateTransform))

def connect_nested_update_loop (parent : Nat)
    (parent_relation_field : RelationFieldRef) (child_model : ModelRef) :
    QueryGraph → List ParsedInputValue → GBResult QueryGraph
  | g, [] => .ok g
  | g, v :: rest =>
      (nested_update_one g parent parent_relation_field v child_model).bind
        fun g2 => connect_nested_update_loop parent parent_relation_field
          child_model g2 rest

/-- `connect_nested_update` (update_nested.rs, lines 39–97). The child
model identifier of the edge is
`parent_relation_field.related_model().primary_identifier()`; the source
passes `child_model` and the related model interchangeably here, and the
embedding uses the explicit `child_model` argument. -/
def connect_nested_update (g : QueryGraph) (parent : Nat)
    (parent_relation_field : RelationFieldRef) (value : ParsedInputValue)
    (child_model : ModelRef) : GBResult QueryGraph :=
  connect_nested_update_loop parent parent_relation_field child_model g
    (coerce_vec value)

end GraphBuilder

namespace GraphBuilder

open QueryBuilder (PrismaValue RecordIdentifier)

/-- C9: for a nested to-one update, `connect_nested_update` adds a
find-children read node — filtered by the caller's `where` argument when
the parent relation is to-many (the `where` map must have exactly one
non-null key), by the empty filter otherwise — and an update node,
connected by a `ParentIds` edge carrying `nestedUpdateTransform`, which
pops exactly one (the last) parent id and injects it as an additional
filter on the update node, and which fails with
`AssertionError("Expected a valid parent ID to be present for nested
update to-one case.")` when the parent returned no ids. -/
theorem connect_nested_update_spec
    (g : QueryGraph) (parent : Nat) (rf : RelationFieldRef)
    (child_model : ModelRef)
    (m m1 mrest whereMap dataMap : List (String × ParsedInputValue))
    (hwhere : mapRemove m "where" = some (.map whereMap, m1))
    (hsize : whereMap.length = 1)
    (hnn : whereMap.any (fun e => e.2.isNull) = false)
    (hdata : mapRemove m1 "data" = some (.map dataMap, mrest)) :
    (rf.is_list = true →
      connect_nested_update g parent rf (.map m) child_model
        = .ok (
            let found := insert_find_children_by_parent_node g parent rf
              (.extracted whereMap child_model.name)
            let upd := update_record_node found.1 Filter.empty child_model dataMap
            upd.1.create_edge found.2 upd.2
              (.parentIds child_model.primary_identifier nestedUpdateTransform))) ∧
    (rf.is_list = false →
      connect_nested_update g parent rf (.map m) child_model
        = .ok (
            let found := insert_find_children_by_parent_node g parent rf
              Filter.empty
            let upd := update_record_node found.1 Filter.empty child_model m
            upd.1.create_edge found.2 upd.2
              (.parentIds child_model.primary_identifier nestedUpdateTransform))) ∧
    (∀ node, nestedUpdateTransform node []
      = .err (.assertionError
          "Expected a valid parent ID to be present for nested update to-one case.")) ∧
    (∀ (ur : UpdateRecord) (ids : List RecordIdentifier) (id : RecordIdentifier),
      nestedUpdateTransform (.query (.write (.updateRecord ur))) (ids ++ [id])
        = .ok (.query (.write (.updateRecord (ur.add_filter (idFilter id)))))) ∧
    (∀ wm : List (String × ParsedInputValue), wm.length ≠ 1 →
      assertSize wm 1 = .err (.queryParserError "wrong argument cardinality")) := by
  refine ⟨?_, ?_, ?_, ?_, ?_⟩
  · intro hlist
    unfold connect_nested_update coerce_vec connect_nested_update_loop
      nested_update_one
    simp only [hlist, if_true, hwhere, hdata, assertSize, hsize,
      assertNonNull, hnn, extract_filter, RResult.bind_ok, if_false,
      Bool.false_eq_true, reduceIte]
    rfl
  · intro hlist
    unfold connect_nested_update coerce_vec connect_nested_update_loop
      nested_update_one
    simp only [hlist, Bool.false_eq_true, if_false, RResult.bind_ok]
    rfl
  · intro node
    rfl
  · intro ur ids id
    unfold nestedUpdateTransform
    rw [List.getLast?_concat]
  · intro wm h
    unfold assertSize
    rw [if_neg h]

/-! Concrete nested to-one update for the C9 witness. -/

def cGraphC9 : QueryGraph := ⟨[.empty], []⟩

def cRfC9 : RelationFieldRef := ⟨true, ⟨"Blog", ["id"]⟩, ⟨"Post", ["id"]⟩⟩

def cChildC9 : ModelRef := ⟨"Post", ["id"]⟩

def cWhereMapC9 : List (String × ParsedInputValue) :=
  [("id", .single (.int 1))]

def cDataMapC9 : List (String × ParsedInputValue) :=
  [("title", .single (.string "t"))]

def cMC9 : List (String × ParsedInputValue) :=
  [("where", .map cWhereMapC9), ("data", .map cDataMapC9)]

def cIdC9 : QueryBuilder.RecordIdentifier := ⟨[("id", .int 7)]⟩

def cUrC9 : UpdateRecord := ⟨"Post", [Filter.empty], cDataMapC9⟩

/-- Witness for C9 at a concrete to-many nested update. -/
theorem connect_nested_update_spec_witness :
    (mapRemove cMC9 "where" = some (.map cWhereMapC9, [("data", .map cDataMapC9)]) ∧
      cWhereMapC9.length = 1 ∧
      cWhereMapC9.any (fun e => e.2.isNull) = false ∧
      mapRemove [("data", .map cDataMapC9)] "data" = some (.map cDataMapC9, [])) ∧
    (connect_nested_update cGraphC9 0 cRfC9 (.map cMC9) cChildC9
      = .ok (
          let found := insert_find_children_by_parent_node cGraphC9 0 cRfC9
            (.extracted cWhereMapC9 cChildC9.name)
          let upd := update_record_node found.1 Filter.empty cChildC9 cDataMapC9
          upd.1.create_edge found.2 upd.2
            (.parentIds cChildC9.primary_identifier nestedUpdateTransform))) ∧
    (nestedUpdateTransform Node.empty []
      = .err (.assertionError
          "Expected a valid parent ID to be present for nested update to-one case.")) ∧
    (nestedUpdateTransform (.query (.write (.updateRecord cUrC9))) ([] ++ [cIdC9])
      = .ok (.query (.write (.updateRecord (cUrC9.add_filter (idFilter cIdC9)))))) :=
  ⟨⟨rfl, rfl, rfl, rfl⟩,
    (connect_nested_update_spec cGraphC9 0 cRfC9 cChildC9 cMC9
      [("data", .map cDataMapC9)] [] cWhereMapC9 cDataMapC9
      rfl rfl rfl rfl).1 rfl,
    (connect_nested_update_spec cGraphC9 0 cRfC9 cChildC9 cMC9
      [("data", .map cDataMapC9)] [] cWhereMapC9 cDataMapC9
      rfl rfl rfl rfl).2.2.1 Node.empty,
    (connect_nested_update_spec cGraphC9 0 cRfC9 cChildC9 cMC9
      [("data", .map cDataMapC9)] [] cWhereMapC9 cDataMapC9
      rfl rfl rfl rfl).2.2.2.1 cUrC9 [] cIdC9⟩

end GraphBuilder
